import Mathlib

/-!
Shallow embedding of the Make-It-Heavy agent loop (`src/agent.py`) and the
Megamind orchestration pipeline (`src/megamind_orchestrator.py`), together
with theorems settling the specification claims about them.

External collaborators (the LLM provider, the JSON decoder, the discovered
tool functions, thread scheduling) are modelled as explicit oracle
parameters; everything else is translated directly from the Python source.
-/

namespace MakeItHeavy

/-- One image attachment as passed through the web layer:
a dict with `mime_type` and base64 `data` (src/agent.py `_build_user_content`). -/
structure ImageDict where
  mime_type : String
  data : String
deriving Repr, DecidableEq

/-- A provider-requested tool call: `{id, function.name, function.arguments}`
(src/agent.py).  The raw JSON `arguments` string is kept opaque. -/
structure ToolCall where
  id : String
  name : String
  args : String
deriving Repr, DecidableEq

/-- The user message content built by `OpenRouterAgent._build_user_content`
(src/agent.py lines 112-126): plain text when `images` is falsy, otherwise
image parts followed by a text part. -/
inductive UserContent
  | text (s : String)
  | parts (imgs : List ImageDict) (s : String)
deriving Repr, DecidableEq

def build_user_content (user_input : String) (images : Option (List ImageDict)) :
    UserContent :=
  match images with
  | none => .text user_input
  | some [] => .text user_input
  | some imgs => .parts imgs user_input

/-- A conversation message of the OpenAI-style message list built by
`OpenRouterAgent.run` (src/agent.py lines 132-141, 159-163, 97-102). -/
inductive Msg
  | system (content : String)
  | user (content : UserContent)
  | assistant (content : String) (tool_calls : List ToolCall)
  | tool (tool_call_id : String) (name : String) (content : String)
deriving Repr, DecidableEq

/-- The provider's assistant message: `response.choices[0].message`, reduced to
its visible text (empty string standing for Python's falsy `None`/`""`) and its
list of requested tool calls. -/
structure AssistantMsg where
  content : String
  tool_calls : List ToolCall

/-- The provider as an oracle: one assistant message per completion call on the
current message list (spec's CompletionClient, consumed opaquely). -/
def Provider := List Msg → AssistantMsg

/-- `self.tool_mapping`: association list from tool name to its execute
function, modelled as raw-argument-string to result-string. -/
def ToolMapping := List (String × (String → String))

def lookupTool : ToolMapping → String → Option (String → String)
  | [], _ => none
  | (m, f) :: rest, n => if m = n then some f else lookupTool rest n

/-- Error payload for a provider-requested tool absent from `tool_mapping`
(src/agent.py lines 93-94, 253-254); the JSON dict encoding is abstracted to
its error text. -/
def unknownToolContent (tool_name : String) : String :=
  "error: Unknown tool: " ++ tool_name

/-- `OpenRouterAgent.handle_tool_call` (src/agent.py lines 83-110): execute a
mapped tool, otherwise produce the unknown-tool error payload.  The returned
flag instruments whether a real tool function was executed. -/
def handle_tool_call (tool_mapping : ToolMapping) (tc : ToolCall) : Msg × Bool :=
  match lookupTool tool_mapping tc.name with
  | some f => (.tool tc.id tc.name (f tc.args), true)
  | none => (.tool tc.id tc.name (unknownToolContent tc.name), false)

/-- Mutable state threaded through an `OpenRouterAgent.run` invocation:
the message list, `full_response_content`, and instrumentation recording the
tool names passed to `handle_tool_call` (`invoked`), the names whose mapped
function actually ran (`executed`), and the number of provider calls. -/
structure RunState where
  messages : List Msg
  transcript : List String
  invoked : List String
  executed : List String
  calls : Nat

/-- The per-batch tool-call loop of `OpenRouterAgent.run` (src/agent.py lines
175-191): handle calls in order, and on the completion sentinel return
immediately, skipping the remaining queued calls of the batch. -/
def processBatchOR (tool_mapping : ToolMapping) :
    List ToolCall → RunState → RunState × Bool
  | [], st => (st, false)
  | tc :: rest, st =>
    let hr := handle_tool_call tool_mapping tc
    let st' : RunState :=
      { st with
        messages := st.messages ++ [hr.1]
        invoked := st.invoked ++ [tc.name]
        executed := st.executed ++ (if hr.2 then [tc.name] else []) }
    if tc.name = "mark_task_complete" then (st', true)
    else processBatchOR tool_mapping rest st'

/-- Appending the assistant's message and capturing its visible content
(src/agent.py lines 158-167): the message is always appended, the content is
accumulated only when truthy. -/
def absorbAssistant (st : RunState) (am : AssistantMsg) : RunState :=
  let st1 : RunState :=
    { st with
      messages := st.messages ++ [.assistant am.content am.tool_calls]
      calls := st.calls + 1 }
  if am.content ≠ "" then { st1 with transcript := st1.transcript ++ [am.content] }
  else st1

/-- The agentic loop of `OpenRouterAgent.run` (src/agent.py lines 149-197),
fuel = remaining iterations of `while iteration < max_iterations`.  The
boolean result is the early-completion signal. -/
def runLoopOR (provider : Provider) (tool_mapping : ToolMapping) :
    Nat → RunState → RunState × Bool
  | 0, st => (st, false)
  | n + 1, st =>
    let am := provider st.messages
    let st2 := absorbAssistant st am
    match am.tool_calls with
    | [] => runLoopOR provider tool_mapping n st2
    | tc :: tcs =>
      let pr := processBatchOR tool_mapping (tc :: tcs) st2
      if pr.2 then (pr.1, true) else runLoopOR provider tool_mapping n pr.1

def joinBlank (xs : List String) : String := String.intercalate "\n\n" xs

/-- Literal returned by `OpenRouterAgent.run` when the iteration cap is hit
with nothing accumulated (src/agent.py line 199). -/
def orExhausted : String := "Maximum iterations reached. The agent may be stuck in a loop."

/-- The common return-value assembly of both run methods (src/agent.py lines
187, 199, 339, 344): the joined transcript on completion, otherwise the
joined transcript if non-empty, otherwise the exhausted literal. -/
def finishRun (transcript : List String) (done : Bool) (exhausted : String) : String :=
  if done then joinBlank transcript
  else if transcript ≠ [] then joinBlank transcript
  else exhausted

structure RunOutput where
  result : String
  finalState : RunState
  completed : Bool

/-- `OpenRouterAgent.run` (src/agent.py lines 128-199). -/
def ORAgent_run (provider : Provider) (tool_mapping : ToolMapping)
    (system_prompt user_input : String) (images : Option (List ImageDict))
    (max_iterations : Nat) : RunOutput :=
  let st0 : RunState :=
    { messages := [.system system_prompt, .user (build_user_content user_input images)]
      transcript := []
      invoked := []
      executed := []
      calls := 0 }
  let r := runLoopOR provider tool_mapping max_iterations st0
  { result := finishRun r.1.transcript r.2 orExhausted
    finalState := r.1
    completed := r.2 }

/-- One part of a Gemini content object (src/agent.py `GeminiAgent`):
text, a requested function call, a function response, or an image part. -/
inductive GemPart
  | text (s : String)
  | functionCall (tc : ToolCall)
  | functionResponse (name : String) (response : String)
  | image (mime_type : String) (data : String)
deriving Repr, DecidableEq

structure GemContent where
  role : String
  parts : List GemPart
deriving Repr, DecidableEq

/-- The Gemini provider oracle: `generate_content` returns either no candidate
(`response.candidates` empty) or the first candidate's content. -/
def GemProvider := List GemContent → Option GemContent

/-- `response.text`: the concatenated text parts of the returned content,
with `""` standing for the falsy no-text case. -/
def gemText (c : GemContent) : String :=
  String.join (c.parts.map fun p => match p with | .text s => s | _ => "")

/-- The function calls gathered from `response_content.parts`
(src/agent.py lines 306-309). -/
def gemFunctionCalls (c : GemContent) : List ToolCall :=
  c.parts.filterMap fun p => match p with | .functionCall tc => some tc | _ => none

/-- `GeminiAgent.handle_tool_call` (src/agent.py lines 246-258). -/
def gemHandleToolCall (tool_mapping : ToolMapping) (tc : ToolCall) : String × Bool :=
  match lookupTool tool_mapping tc.name with
  | some f => (f tc.args, true)
  | none => (unknownToolContent tc.name, false)

/-- The per-batch loop of `GeminiAgent.run` (src/agent.py lines 315-334):
every call in the batch is handled — the sentinel only sets `task_completed`
and the loop keeps invoking the remaining calls.  Returns the function
response parts, the invoked names, the executed names, and the flag. -/
def processBatchGem (tool_mapping : ToolMapping) :
    List ToolCall → List GemPart × List String × List String × Bool
  | [] => ([], [], [], false)
  | tc :: rest =>
    let hr := gemHandleToolCall tool_mapping tc
    let pr := processBatchGem tool_mapping rest
    (GemPart.functionResponse tc.name hr.1 :: pr.1,
     tc.name :: pr.2.1,
     (if hr.2 then [tc.name] else []) ++ pr.2.2.1,
     (tc.name = "mark_task_complete" || pr.2.2.2))

structure GemRunState where
  contents : List GemContent
  transcript : List String
  invoked : List String
  executed : List String
  calls : Nat

/-- Appending the candidate content and capturing `response.text`
(src/agent.py lines 300-304). -/
def absorbGemContent (st : GemRunState) (rc : GemContent) : GemRunState :=
  let st1 : GemRunState :=
    { st with contents := st.contents ++ [rc], calls := st.calls + 1 }
  if gemText rc ≠ "" then { st1 with transcript := st1.transcript ++ [gemText rc] }
  else st1

/-- The agentic loop of `GeminiAgent.run` (src/agent.py lines 290-342):
a response with no candidates breaks out of the loop early. -/
def runLoopGem (provider : GemProvider) (tool_mapping : ToolMapping) :
    Nat → GemRunState → GemRunState × Bool
  | 0, st => (st, false)
  | n + 1, st =>
    match provider st.contents with
    | none => ({ st with calls := st.calls + 1 }, false)
    | some rc =>
      let st2 := absorbGemContent st rc
      match gemFunctionCalls rc with
      | [] => runLoopGem provider tool_mapping n st2
      | fc :: fcs =>
        let pr := processBatchGem tool_mapping (fc :: fcs)
        let st3 : GemRunState :=
          { st2 with
            contents := st2.contents ++ [⟨"user", pr.1⟩]
            invoked := st2.invoked ++ pr.2.1
            executed := st2.executed ++ pr.2.2.1 }
        if pr.2.2.2 then (st3, true) else runLoopGem provider tool_mapping n st3

/-- Literal returned by `GeminiAgent.run` with nothing accumulated
(src/agent.py line 344). -/
def gemExhausted : String := "Maximum iterations reached."

structure GemRunOutput where
  result : String
  finalState : GemRunState
  completed : Bool

/-- `GeminiAgent._build_content_parts` (src/agent.py lines 260-275). -/
def build_content_parts (user_input : String) (images : Option (List ImageDict)) :
    List GemPart :=
  (match images with
   | none => []
   | some imgs => imgs.map fun i => GemPart.image i.mime_type i.data) ++
  [GemPart.text user_input]

/-- `GeminiAgent.run` (src/agent.py lines 277-344). -/
def GeminiAgent_run (provider : GemProvider) (tool_mapping : ToolMapping)
    (user_input : String) (images : Option (List ImageDict))
    (max_iterations : Nat) : GemRunOutput :=
  let st0 : GemRunState :=
    { contents := [⟨"user", build_content_parts user_input images⟩]
      transcript := []
      invoked := []
      executed := []
      calls := 0 }
  let r := runLoopGem provider tool_mapping max_iterations st0
  { result := finishRun r.1.transcript r.2 gemExhausted
    finalState := r.1
    completed := r.2 }

/-- `OpenRouterAgent` tool state: the schema list offered to the provider
(reduced to the schema names, which is all `remove_tool` inspects) and the
name-to-function mapping (src/agent.py lines 17-18, 59). -/
structure ORAgent where
  tools : List String
  tool_mapping : ToolMapping

/-- `OpenRouterAgent.remove_tool` (src/agent.py lines 67-69). -/
def ORAgent.remove_tool (a : ORAgent) (tool_name : String) : ORAgent :=
  { tools := a.tools.filter (fun t => t ≠ tool_name)
    tool_mapping := a.tool_mapping.filter (fun p => p.1 ≠ tool_name) }

/-- `GeminiAgent` tool state: the discovered tool names (from which the schema
list is rebuilt) and the name-to-function mapping (src/agent.py lines 210-222). -/
structure GemAgent where
  discovered_tools : List String
  tool_mapping : ToolMapping

/-- `GeminiAgent.remove_tool` (src/agent.py lines 230-234). -/
def GemAgent.remove_tool (a : GemAgent) (tool_name : String) : GemAgent :=
  { discovered_tools := a.discovered_tools.filter (fun t => t ≠ tool_name)
    tool_mapping := a.tool_mapping.filter (fun p => p.1 ≠ tool_name) }

/-! ## Orchestrator data model (src/megamind_orchestrator.py) -/

/-- A Python value as produced by `json.loads`. -/
inductive JVal
  | arr (xs : List JVal)
  | str (s : String)
  | num (n : Int)
  | obj (fields : List (String × JVal))
  | bool (b : Bool)
  | null
deriving Repr

/-- Python `len()`: defined on lists, strings and dicts; `none` models the
`TypeError` raised on numbers, booleans and `None`. -/
def pyLen : JVal → Option Nat
  | .arr xs => some xs.length
  | .str s => some s.length
  | .obj fs => some fs.length
  | _ => none

/-- Outcome of a Python call: a returned value or a propagating exception. -/
inductive PyResult (α : Type)
  | ok (val : α)
  | raised (msg : String)
deriving Repr, DecidableEq

/-- The two namespaces of the progress store: `self.stage_progress` and
`self.agent_progress` (src/megamind_orchestrator.py lines 27-28). -/
inductive EvKind
  | stage
  | agent
deriving Repr, DecidableEq

/-- A single progress-store write: `update_stage` / `update_agent_progress`
(src/megamind_orchestrator.py lines 135-141).  The optional result payload is
irrelevant to status transitions and is omitted. -/
structure Event where
  kind : EvKind
  key : String
  status : String
deriving Repr, DecidableEq

def stEv (key status : String) : Event := ⟨.stage, key, status⟩

def agEv (key status : String) : Event := ⟨.agent, key, status⟩

/-- Outcome of one `agent.run(prompt)` call inside the orchestrator: the
response text plus measured wall time, or a raised exception message. -/
inductive RunOut
  | ok (response : String) (time : Nat)
  | exn (msg : String)
deriving Repr, DecidableEq

/-- Oracle for the behaviour of the agents the orchestrator creates:
given the agent slot identifier, the prompt, and the tool names available to
that agent instance, the outcome of its `run`. -/
def Behavior := String → String → List String → RunOut

/-- Oracle for `json.loads` (external library): either the parsed value or a
`JSONDecodeError` message. -/
def JsonParse := String → Except String JVal

/-- `AgentRunResult` record built by `_run_agent`
(src/megamind_orchestrator.py lines 169-182). -/
structure AgentRunResult where
  agent_id : String
  status : String
  response : String
  execution_time : Nat
deriving Repr, DecidableEq

/-- Tool names available to the agent created in `_run_agent` after the
optional removal loop (src/megamind_orchestrator.py lines 157-161): with
removal requested, every discovered tool other than `search` and `calculator`
is removed; otherwise the discovered set is untouched. -/
def runAgentToolNames (discovered : List String) (restrict : Bool) : List String :=
  if restrict then discovered.filter (fun n => n == "search" || n == "calculator")
  else discovered

structure RunAgentRes where
  result : AgentRunResult
  events : List Event

/-- `MegamindOrchestrator._run_agent` (src/megamind_orchestrator.py lines
153-182): records PROCESSING, runs the agent, and converts any exception into
an error-status record (catch-all `except Exception`). -/
def _run_agent (beh : Behavior) (discovered : List String)
    (agent_id prompt : String) (restrict : Bool) : RunAgentRes :=
  let toolNames := runAgentToolNames discovered restrict
  match beh agent_id prompt toolNames with
  | .ok resp t =>
    { result :=
        { agent_id := agent_id, status := "success", response := resp, execution_time := t }
      events := [agEv agent_id "PROCESSING", agEv agent_id "COMPLETED"] }
  | .exn msg =>
    { result :=
        { agent_id := agent_id, status := "error", response := "Error: " ++ msg
          execution_time := 0 }
      events := [agEv agent_id "PROCESSING", agEv agent_id "FAILED"] }

/-- Prompt templates are out of scope (spec section 1); `str.format`
application is modelled as an injective tagged concatenation. -/
def question_prompt (user_input : String) : String :=
  "QUESTION_GENERATION_PROMPT: " ++ user_input

def synthesis_prompt (agent_responses : String) : String :=
  "SYNTHESIS_PROMPT: " ++ agent_responses

def validation_prompt_1 (original_query draft_answer : String) : String :=
  "VALIDATION_PROMPT_1: " ++ original_query ++ " DRAFT: " ++ draft_answer

def validation_prompt_2 (original_query draft_answer : String) : String :=
  "VALIDATION_PROMPT_2: " ++ original_query ++ " DRAFT: " ++ draft_answer

def final_synthesis_prompt (original_query draft_answer validation_1 validation_2 : String) :
    String :=
  "FINAL_SYNTHESIS_PROMPT: " ++ original_query ++ " DRAFT: " ++ draft_answer ++
    " V1: " ++ validation_1 ++ " V2: " ++ validation_2

/-- The deterministic fallback of `generate_questions`
(src/megamind_orchestrator.py lines 205-210). -/
def fallback_questions (user_input : String) : List String :=
  ["Research comprehensive information about: " ++ user_input,
   "Analyze and provide insights about: " ++ user_input,
   "Find alternative perspectives on: " ++ user_input,
   "Verify and cross-check facts about: " ++ user_input]

structure QGenRes where
  result : PyResult JVal
  events : List Event

/-- Tool names of the stage-1 agent: only the completion sentinel is removed
(src/megamind_orchestrator.py line 189). -/
def qgenToolNames (discovered : List String) : List String :=
  discovered.filter (fun t => t ≠ "mark_task_complete")

/-- `MegamindOrchestrator.generate_questions` (src/megamind_orchestrator.py
lines 184-213).  The stage-1 agent is created with only the completion
sentinel removed (line 189).  The `except` clause catches exactly
`json.JSONDecodeError` and `ValueError`; an exception out of `agent.run`
propagates, and `len()` of a length-less parsed value raises `TypeError`,
which also propagates. -/
def generate_questions (jsonParse : JsonParse) (beh : Behavior)
    (discovered : List String) (user_input : String) : QGenRes :=
  let ev0 := [stEv "question_generation" "IN_PROGRESS", agEv "question_gen" "PROCESSING"]
  let evDone := [agEv "question_gen" "COMPLETED", stEv "question_generation" "COMPLETED"]
  let fb : JVal := .arr ((fallback_questions user_input).map .str)
  match beh "question_gen" (question_prompt user_input) (qgenToolNames discovered) with
  | .exn msg => { result := .raised ("Exception: " ++ msg), events := ev0 }
  | .ok response _t =>
    match jsonParse response.trim with
    | .error _e => { result := .ok fb, events := ev0 ++ evDone }
    | .ok v =>
      match pyLen v with
      | none => { result := .raised "TypeError: object has no length", events := ev0 }
      | some n =>
        if n ≠ 4 then { result := .ok fb, events := ev0 ++ evDone }
        else { result := .ok v, events := ev0 ++ evDone }

/-- The fixed fan-out identifiers of the parallel research stage
(src/megamind_orchestrator.py line 218). -/
def agent_names : List String := ["research", "analysis", "alternatives", "verification"]

/-- Interleave a family of per-thread event lists according to a scheduling
choice: each step pops the head of the thread the schedule picks (skipping
exhausted or out-of-range picks); when the schedule runs out the remaining
events are flushed in thread order.
Every interleaving of the threads is produced by some schedule. -/
def interleave {α : Type} : List Nat → List (List α) → List α
  | [], ts => ts.flatten
  | i :: s, ts =>
    match ts.get? i with
    | some (e :: rest) => e :: interleave s (ts.set i (rest : List α))
    | _ => interleave s ts

structure BatchRes where
  result : PyResult (List AgentRunResult)
  events : List Event

/-- `MegamindOrchestrator.run_parallel_agents` (src/megamind_orchestrator.py
lines 215-245).  `images` is accepted and never used (line 215).  Each task is
submitted with `remove_tools=False` (line 228).  `sched` resolves the
interleaving of the worker threads' progress writes; `order` is the
completion order in which `as_completed` yields the futures.  A batch timeout
raises `TimeoutError` at the `for` statement, outside the per-future
`try`/`except`, so it propagates; the executor's `with`-exit still joins the
workers first.  The per-future `except` branch (lines 235-242) is unreachable
because `_run_agent` catches every exception itself. -/
def run_parallel_agents (beh : Behavior) (discovered : List String)
    (questions : List String) (images : Option (List ImageDict))
    (sched : List Nat) (order : List Nat) (timedOut : Bool) : BatchRes :=
  let _ := images
  let tasks := agent_names.zip questions
  let workers := tasks.map fun p => _run_agent beh discovered p.1 p.2 false
  let pre := [stEv "parallel_research" "IN_PROGRESS"] ++
    agent_names.map (fun n => agEv n "QUEUED")
  let workerEvents := interleave sched (workers.map (·.events))
  let futResults := workers.map (·.result)
  if timedOut then
    { result := .raised "TimeoutError", events := pre ++ workerEvents }
  else
    { result := .ok (order.filterMap (futResults.get? ·))
      events := pre ++ workerEvents ++ [stEv "parallel_research" "COMPLETED"] }

/-- Canonical agent identifiers and display names used by `first_synthesis`
(src/megamind_orchestrator.py lines 252-257). -/
def display_names : List String := ["Research", "Analysis", "Alternatives", "Verification"]

/-- Python's `str.upper()` on the ASCII display names. -/
def pyUpper (s : String) : String := ⟨s.data.map Char.toUpper⟩

/-- One labeled section of the merged block (src/megamind_orchestrator.py
lines 254-258): an unknown `agent_id` falls back to index 0. -/
def sectionFor (r : AgentRunResult) : String :=
  let idx := match agent_names.findIdx? (fun n => n == r.agent_id) with
    | some i => i
    | none => 0
  let name := match display_names.get? idx with
    | some n => n
    | none => r.agent_id
  "=== " ++ pyUpper name ++ " AGENT ===\n" ++ r.response ++ "\n\n"

/-- The merged `agent_responses_text` block (src/megamind_orchestrator.py
lines 251-258): string accumulation over the results in the order given. -/
def agentResponsesText (rs : List AgentRunResult) : String :=
  rs.foldl (fun acc r => acc ++ sectionFor r) ""

structure TextStageRes where
  result : PyResult String
  events : List Event

/-- `MegamindOrchestrator.first_synthesis` (src/megamind_orchestrator.py lines
247-274): the synthesis agent has every tool removed (lines 262-264); a run
failure is re-raised after recording FAILED. -/
def first_synthesis (beh : Behavior) (agent_results : List AgentRunResult) :
    TextStageRes :=
  let ev0 := [stEv "first_synthesis" "IN_PROGRESS", agEv "synthesis" "PROCESSING"]
  let prompt := synthesis_prompt (agentResponsesText agent_results)
  match beh "synthesis" prompt [] with
  | .ok resp _t =>
    { result := .ok resp
      events := ev0 ++ [agEv "synthesis" "COMPLETED", stEv "first_synthesis" "COMPLETED"] }
  | .exn msg =>
    { result := .raised msg
      events := ev0 ++ [agEv "synthesis" "FAILED", stEv "first_synthesis" "FAILED"] }

/-- `MegamindOrchestrator.run_validation` (src/megamind_orchestrator.py lines
276-310): two validators submitted with `remove_tools=True`; same collection
structure as `run_parallel_agents`, with the same uncaught batch timeout. -/
def run_validation (beh : Behavior) (discovered : List String)
    (original_query draft_answer : String)
    (sched : List Nat) (order : List Nat) (timedOut : Bool) : BatchRes :=
  let w1 := _run_agent beh discovered "validator_1"
    (validation_prompt_1 original_query draft_answer) true
  let w2 := _run_agent beh discovered "validator_2"
    (validation_prompt_2 original_query draft_answer) true
  let pre := [stEv "validation" "IN_PROGRESS",
    agEv "validator_1" "QUEUED", agEv "validator_2" "QUEUED"]
  let workerEvents := interleave sched [w1.events, w2.events]
  let futResults := [w1.result, w2.result]
  if timedOut then
    { result := .raised "TimeoutError", events := pre ++ workerEvents }
  else
    { result := .ok (order.filterMap (futResults.get? ·))
      events := pre ++ workerEvents ++ [stEv "validation" "COMPLETED"] }

/-- `MegamindOrchestrator.final_synthesis` (src/megamind_orchestrator.py lines
312-338): extracts the two critiques by first matching `agent_id`, defaulting
to the empty string; all tools removed; failures re-raised. -/
def final_synthesis (beh : Behavior) (original_query draft_answer : String)
    (validation_results : List AgentRunResult) : TextStageRes :=
  let validation_1 := match validation_results.find? (fun r => r.agent_id == "validator_1") with
    | some r => r.response
    | none => ""
  let validation_2 := match validation_results.find? (fun r => r.agent_id == "validator_2") with
    | some r => r.response
    | none => ""
  let ev0 := [stEv "final_synthesis" "IN_PROGRESS", agEv "final" "PROCESSING"]
  let prompt := final_synthesis_prompt original_query draft_answer validation_1 validation_2
  match beh "final" prompt [] with
  | .ok resp _t =>
    { result := .ok resp
      events := ev0 ++ [agEv "final" "COMPLETED", stEv "final_synthesis" "COMPLETED"] }
  | .exn msg =>
    { result := .raised msg
      events := ev0 ++ [agEv "final" "FAILED", stEv "final_synthesis" "FAILED"] }

/-- Rendering of a question taken from the stage-1 value when it is handed to
`_run_agent` as a prompt: strings pass through unchanged; iterating a dict
yields its keys, iterating a string yields its characters.  (Non-string
elements would reach the agent as Python objects; their exact textual form is
irrelevant downstream and rendered canonically.) -/
def jvalPromptString : JVal → String
  | .str s => s
  | .num n => toString n
  | .bool true => "True"
  | .bool false => "False"
  | .null => "None"
  | .arr _ => "[...]"
  | .obj _ => "..."

/-- What `zip(agent_names, questions)` iterates over when `questions` is the
value returned by `generate_questions`. -/
def promptsOf : JVal → List String
  | .arr xs => xs.map jvalPromptString
  | .str s => s.data.map Char.toString
  | .obj fs => fs.map (·.1)
  | _ => []

/-- `all_results` as assembled by `orchestrate`
(src/megamind_orchestrator.py lines 344-377). -/
structure PipelineBundle where
  questions : JVal
  research_results : List AgentRunResult
  first_draft : String
  validation_results : List AgentRunResult
  final_result : String
deriving Repr

structure OrchRes where
  result : PyResult PipelineBundle
  events : List Event

/-- Scheduling oracle for the two fan-out stages: worker write interleavings,
`as_completed` collection orders, and whether the batch deadline fired. -/
structure Scheduling where
  researchSched : List Nat
  researchOrder : List Nat
  researchTimedOut : Bool
  valSched : List Nat
  valOrder : List Nat
  valTimedOut : Bool

/-- `MegamindOrchestrator.orchestrate` (src/megamind_orchestrator.py lines
340-377): the five stages in sequence; any uncaught stage exception aborts
the pipeline.  The `status_callback` writes to an external queue and is not
part of the progress store. -/
def orchestrate (beh : Behavior) (jsonParse : JsonParse) (discovered : List String)
    (user_input : String) (images : Option (List ImageDict)) (sc : Scheduling) : OrchRes :=
  let q := generate_questions jsonParse beh discovered user_input
  match q.result with
  | .raised m => { result := .raised m, events := q.events }
  | .ok qv =>
    let rr := run_parallel_agents beh discovered (promptsOf qv) images
      sc.researchSched sc.researchOrder sc.researchTimedOut
    match rr.result with
    | .raised m => { result := .raised m, events := q.events ++ rr.events }
    | .ok research_results =>
      let fs := first_synthesis beh research_results
      match fs.result with
      | .raised m => { result := .raised m, events := q.events ++ rr.events ++ fs.events }
      | .ok first_draft =>
        let vr := run_validation beh discovered user_input first_draft
          sc.valSched sc.valOrder sc.valTimedOut
        match vr.result with
        | .raised m =>
          { result := .raised m, events := q.events ++ rr.events ++ fs.events ++ vr.events }
        | .ok validation_results =>
          let fin := final_synthesis beh user_input first_draft validation_results
          match fin.result with
          | .raised m =>
            { result := .raised m
              events := q.events ++ rr.events ++ fs.events ++ vr.events ++ fin.events }
          | .ok final_result =>
            { result := .ok
                { questions := qv, research_results := research_results
                  first_draft := first_draft, validation_results := validation_results
                  final_result := final_result }
              events := q.events ++ rr.events ++ fs.events ++ vr.events ++ fin.events }

/-! ## Spec-side comparison definitions and concrete fixtures -/

/-- Modelled from the spec: the batch prefix the spec says is invoked — the
queued calls up to and including the first completion-sentinel call
(spec section 4.1, step 2d).  Compared against the invocation lists the two
run loops actually produce. -/
def upToSentinel : List String → List String
  | [] => []
  | n :: rest => if n = "mark_task_complete" then [n] else n :: upToSentinel rest

/-- Modelled from the spec: the accumulated assistant text segments, read off
the final conversation in turn order (spec section 4.1, step 2b). -/
def assistantTexts (ms : List Msg) : List String :=
  ms.filterMap fun m =>
    match m with
    | .assistant c _ => if c ≠ "" then some c else none
    | _ => none

/-- Rank of a recorded status along the
not-started → queued → in-progress/processing → completed/failed chain. -/
def statusRank : String → Nat
  | "QUEUED" => 1
  | "PROCESSING" => 2
  | "IN_PROGRESS" => 2
  | "COMPLETED" => 3
  | "FAILED" => 3
  | _ => 0

def rankLt (a b : String) : Prop := statusRank a < statusRank b

instance : DecidableRel rankLt := fun _ _ => by unfold rankLt; infer_instance

/-- The sequence of statuses written to one key of one progress-store
namespace, in trace order. -/
def projKey (kind : EvKind) (key : String) (tr : List Event) : List String :=
  tr.filterMap fun e => if e.kind = kind ∧ e.key = key then some e.status else none

/-- Monotonicity of the progress store over a trace: for every key of either
namespace, each status written later ranks strictly above every status
written earlier — in particular a `COMPLETED` key is never overwritten with
`QUEUED`, `PROCESSING` or `IN_PROGRESS`. -/
def GoodTrace (tr : List Event) : Prop :=
  ∀ kind key, List.Pairwise rankLt (projKey kind key tr)

/-- Two progress writes are compatible when, if they hit the same key of the
same namespace, the later write ranks strictly above the earlier one.  A
trace pairwise-compatible in this sense is monotone on every key. -/
def condRel (e1 e2 : Event) : Prop :=
  e1.kind = e2.kind → e1.key = e2.key → rankLt e1.status e2.status

instance : DecidableRel condRel := fun _ _ => by unfold condRel rankLt; infer_instance

/-- The progress keys each pipeline stage writes (used to show that distinct
stages touch disjoint keys). -/
def qgenKeys : List (EvKind × String) :=
  [(.stage, "question_generation"), (.agent, "question_gen")]

def researchKeys : List (EvKind × String) :=
  [(.stage, "parallel_research"), (.agent, "research"), (.agent, "analysis"),
   (.agent, "alternatives"), (.agent, "verification")]

def synthKeys : List (EvKind × String) :=
  [(.stage, "first_synthesis"), (.agent, "synthesis")]

def valKeys : List (EvKind × String) :=
  [(.stage, "validation"), (.agent, "validator_1"), (.agent, "validator_2")]

def finalKeys : List (EvKind × String) :=
  [(.stage, "final_synthesis"), (.agent, "final")]

/-- Fixture: a behaviour that reports the tool names its agent instance was
given, making tool restriction observable in the result records. -/
def exBehEcho : Behavior := fun _ _ toolNames => .ok (String.intercalate "," toolNames) 0

/-- Fixture: a behaviour that always succeeds with a response naming its slot. -/
def exBehOk : Behavior := fun agent_id _ _ => .ok ("resp-" ++ agent_id) 1

/-- Fixture: a behaviour whose underlying provider call always fails, as
`OpenRouterAgent.call_llm` surfaces it (src/agent.py line 81). -/
def exBehExn : Behavior := fun _ _ _ => .exn "LLM call failed: boom"

/-- Fixture: `json.loads` succeeding with the JSON number `5`
(the response text `"5"` is well-formed JSON with no `len()`). -/
def exParseNum : JsonParse := fun _ => .ok (.num 5)

/-- Fixture: `json.loads` failing with a decode error. -/
def exParseErr : JsonParse := fun _ => .error "Expecting value"

/-- Fixture: `json.loads` succeeding with a 4-element array of strings. -/
def exParseArr4 : JsonParse := fun _ =>
  .ok (.arr [.str "qa", .str "qb", .str "qc", .str "qd"])

/-- Modelled from the spec: concatenation of labeled sections in input-list
order, the order the merged block actually follows. -/
def concatAll : List String → String
  | [] => ""
  | s :: rest => s ++ concatAll rest

/-- Fixture: a Gemini provider that requests the completion sentinel first and
a second tool call after it in the same batch. -/
def exGemProviderBatch : GemProvider := fun _ =>
  some ⟨"model", [.functionCall ⟨"1", "mark_task_complete", "done"⟩,
                  .functionCall ⟨"2", "do_thing", "x"⟩]⟩

/-- Fixture: a tool mapping containing the second tool of the batch above. -/
def exMappingDoThing : ToolMapping := [("do_thing", fun _ => "did-thing")]

/-- Fixture: an OpenRouter provider that answers with text and the completion
sentinel on the first turn. -/
def exProviderSentinel : Provider := fun _ =>
  ⟨"hello", [⟨"1", "mark_task_complete", "x"⟩]⟩

/-! ## Helper lemmas -/

theorem foldl_sections (rs : List AgentRunResult) (acc : String) :
    rs.foldl (fun a r => a ++ sectionFor r) acc = acc ++ concatAll (rs.map sectionFor) := by
  induction rs generalizing acc with
  | nil => simp [concatAll]
  | cons r rest ih =>
    simp only [List.foldl, List.map, concatAll]
    rw [ih, String.append_assoc]

theorem _run_agent_agent_id (beh : Behavior) (d : List String) (id p : String) (r : Bool) :
    ((_run_agent beh d id p r).result).agent_id = id := by
  rcases h : beh id p (runAgentToolNames d r) with _ | _ <;> simp [_run_agent, h]

theorem filterMap_get?_length {α : Type} (l : List α) (order : List Nat)
    (h : ∀ i ∈ order, i < l.length) :
    (order.filterMap (l.get? ·)).length = order.length := by
  induction order with
  | nil => rfl
  | cons i rest ih =>
    have hi : i < l.length := h i (by simp)
    rw [List.filterMap_cons, List.get?_eq_get hi]
    simp only [List.length_cons]
    rw [ih (fun j hj => h j (by simp [hj]))]

/-- The four research futures in submission order: the collection in
`run_parallel_agents` draws from exactly these results. -/
theorem run_parallel_agents_ok (beh : Behavior) (discovered : List String)
    (images : Option (List ImageDict)) (sched : List Nat)
    (q1 q2 q3 q4 : String) (order : List Nat) :
    (run_parallel_agents beh discovered [q1, q2, q3, q4] images sched order false).result =
      .ok (order.filterMap
        ([(_run_agent beh discovered "research" q1 false).result,
          (_run_agent beh discovered "analysis" q2 false).result,
          (_run_agent beh discovered "alternatives" q3 false).result,
          (_run_agent beh discovered "verification" q4 false).result].get? ·)) := rfl

theorem run_validation_ok (beh : Behavior) (discovered : List String)
    (oq draft : String) (sched : List Nat) (order : List Nat) :
    (run_validation beh discovered oq draft sched order false).result =
      .ok (order.filterMap
        ([(_run_agent beh discovered "validator_1" (validation_prompt_1 oq draft) true).result,
          (_run_agent beh discovered "validator_2" (validation_prompt_2 oq draft) true).result].get? ·)) := rfl

theorem finishRun_eq (t : List String) (d : Bool) (e : String) :
    finishRun t d e = if d = false ∧ t = [] then e else joinBlank t := by
  cases d <;> by_cases h : t = [] <;> simp [finishRun, h]

theorem ORAgent_run_result_eq (provider : Provider) (m : ToolMapping)
    (sp ui : String) (imgs : Option (List ImageDict)) (n : Nat) :
    (ORAgent_run provider m sp ui imgs n).result =
      if (ORAgent_run provider m sp ui imgs n).completed = false ∧
          (ORAgent_run provider m sp ui imgs n).finalState.transcript = [] then orExhausted
      else joinBlank (ORAgent_run provider m sp ui imgs n).finalState.transcript :=
  finishRun_eq _ _ _

theorem GeminiAgent_run_result_eq (gp : GemProvider) (m : ToolMapping)
    (ui : String) (imgs : Option (List ImageDict)) (n : Nat) :
    (GeminiAgent_run gp m ui imgs n).result =
      if (GeminiAgent_run gp m ui imgs n).completed = false ∧
          (GeminiAgent_run gp m ui imgs n).finalState.transcript = [] then gemExhausted
      else joinBlank (GeminiAgent_run gp m ui imgs n).finalState.transcript :=
  finishRun_eq _ _ _

theorem processBatchOR_invoked (m : ToolMapping) (tcs : List ToolCall) (st : RunState) :
    (processBatchOR m tcs st).1.invoked = st.invoked ++ upToSentinel (tcs.map (·.name)) := by
  induction tcs generalizing st with
  | nil => simp [processBatchOR, upToSentinel]
  | cons tc rest ih =>
    simp only [processBatchOR, List.map, upToSentinel]
    by_cases h : tc.name = "mark_task_complete"
    · simp [h]
    · simp [h, ih, List.append_assoc]

theorem processBatchOR_done (m : ToolMapping) (tcs : List ToolCall) (st : RunState) :
    (processBatchOR m tcs st).2 = (tcs.map (·.name)).contains "mark_task_complete" := by
  induction tcs generalizing st with
  | nil => simp [processBatchOR]
  | cons tc rest ih =>
    simp only [processBatchOR, List.map, List.contains_cons]
    by_cases h : tc.name = "mark_task_complete"
    · simp [h, ih]
    · simp [h, ih]
      exact fun hh => absurd hh.symm h

theorem processBatchGem_invoked (m : ToolMapping) (tcs : List ToolCall) :
    (processBatchGem m tcs).2.1 = tcs.map (·.name) := by
  induction tcs with
  | nil => rfl
  | cons tc rest ih => simp [processBatchGem, ih]

theorem processBatchGem_done (m : ToolMapping) (tcs : List ToolCall) :
    (processBatchGem m tcs).2.2.2 = (tcs.map (·.name)).contains "mark_task_complete" := by
  induction tcs with
  | nil => rfl
  | cons tc rest ih =>
    simp only [processBatchGem, List.map, List.contains_cons]
    by_cases h : tc.name = "mark_task_complete"
    · simp [h, ih]
    · simp [h, ih]
      exact fun hh => absurd hh.symm h

theorem processBatchOR_calls (m : ToolMapping) (tcs : List ToolCall) (st : RunState) :
    (processBatchOR m tcs st).1.calls = st.calls := by
  induction tcs generalizing st with
  | nil => rfl
  | cons tc rest ih =>
    simp only [processBatchOR]
    by_cases h : tc.name = "mark_task_complete" <;> simp [h, ih]

theorem processBatchOR_transcript (m : ToolMapping) (tcs : List ToolCall) (st : RunState) :
    (processBatchOR m tcs st).1.transcript = st.transcript := by
  induction tcs generalizing st with
  | nil => rfl
  | cons tc rest ih =>
    simp only [processBatchOR]
    by_cases h : tc.name = "mark_task_complete" <;> simp [h, ih]

theorem assistantTexts_append_tool (ms : List Msg) (i na c : String) :
    assistantTexts (ms ++ [.tool i na c]) = assistantTexts ms := by
  simp [assistantTexts, List.filterMap_append]

theorem processBatchOR_assistantTexts (m : ToolMapping) (tcs : List ToolCall) (st : RunState) :
    assistantTexts (processBatchOR m tcs st).1.messages = assistantTexts st.messages := by
  induction tcs generalizing st with
  | nil => rfl
  | cons tc rest ih =>
    obtain ⟨c, hc⟩ : ∃ c, (handle_tool_call m tc).1 = Msg.tool tc.id tc.name c := by
      unfold handle_tool_call
      rcases lookupTool m tc.name with _ | f <;> exact ⟨_, rfl⟩
    simp only [processBatchOR]
    by_cases h : tc.name = "mark_task_complete" <;>
      simp [h, ih, hc, assistantTexts_append_tool]

theorem absorbAssistant_calls (st : RunState) (am : AssistantMsg) :
    (absorbAssistant st am).calls = st.calls + 1 := by
  unfold absorbAssistant
  split <;> rfl

theorem absorbAssistant_executed (st : RunState) (am : AssistantMsg) :
    (absorbAssistant st am).executed = st.executed := by
  unfold absorbAssistant
  split <;> rfl

theorem assistantTexts_append_assistant (ms : List Msg) (c : String) (tcl : List ToolCall) :
    assistantTexts (ms ++ [.assistant c tcl]) =
      assistantTexts ms ++ (if c ≠ "" then [c] else []) := by
  simp only [assistantTexts, List.filterMap_append]
  split <;> simp_all [List.filterMap]

theorem absorbAssistant_transcript_inv (st : RunState) (am : AssistantMsg)
    (h : st.transcript = assistantTexts st.messages) :
    (absorbAssistant st am).transcript = assistantTexts (absorbAssistant st am).messages := by
  unfold absorbAssistant
  by_cases hc : am.content = "" <;> simp [hc, assistantTexts_append_assistant, h]

theorem runLoopOR_calls (p : Provider) (m : ToolMapping) :
    ∀ (fuel : Nat) (st : RunState), (runLoopOR p m fuel st).1.calls ≤ st.calls + fuel := by
  intro fuel
  induction fuel with
  | zero => intro st; simp [runLoopOR]
  | succ n ih =>
    intro st
    simp only [runLoopOR]
    split
    · refine le_trans (ih _) ?_
      rw [absorbAssistant_calls]
      omega
    · split
      · simp only [processBatchOR_calls, absorbAssistant_calls]
        omega
      · refine le_trans (ih _) ?_
        simp only [processBatchOR_calls, absorbAssistant_calls]
        omega

theorem runLoopOR_transcript (p : Provider) (m : ToolMapping) :
    ∀ (fuel : Nat) (st : RunState), st.transcript = assistantTexts st.messages →
      (runLoopOR p m fuel st).1.transcript =
        assistantTexts (runLoopOR p m fuel st).1.messages := by
  intro fuel
  induction fuel with
  | zero => intro st h; simpa [runLoopOR] using h
  | succ n ih =>
    intro st h
    have h2 : ∀ (tcs : List ToolCall) (st2 : RunState),
        st2.transcript = assistantTexts st2.messages →
        (processBatchOR m tcs st2).1.transcript =
          assistantTexts (processBatchOR m tcs st2).1.messages := fun tcs st2 hh => by
      rw [processBatchOR_transcript, processBatchOR_assistantTexts]
      exact hh
    simp only [runLoopOR]
    split
    · exact ih _ (absorbAssistant_transcript_inv st _ h)
    · split
      · exact h2 _ _ (absorbAssistant_transcript_inv st _ h)
      · exact ih _ (h2 _ _ (absorbAssistant_transcript_inv st _ h))

theorem processBatchOR_executed (m : ToolMapping) (t : String)
    (hl : lookupTool m t = none) :
    ∀ (tcs : List ToolCall) (st : RunState), t ∉ st.executed →
      t ∉ (processBatchOR m tcs st).1.executed := by
  intro tcs
  induction tcs with
  | nil => intro st hst; exact hst
  | cons tc rest ih =>
    intro st hst
    have hst' : t ∉ st.executed ++ (if (handle_tool_call m tc).2 then [tc.name] else []) := by
      rcases hlk : lookupTool m tc.name with _ | f
      · simp [handle_tool_call, hlk, hst]
      · simp only [handle_tool_call, hlk, if_true, List.mem_append, List.mem_singleton]
        rintro (hin | heq)
        · exact hst hin
        · rw [heq] at hl
          rw [hl] at hlk
          exact Option.noConfusion hlk
    simp only [processBatchOR]
    by_cases h : tc.name = "mark_task_complete"
    · simpa [h] using hst'
    · simpa [h] using ih _ hst'

theorem runLoopOR_executed (p : Provider) (m : ToolMapping) (t : String)
    (hl : lookupTool m t = none) :
    ∀ (fuel : Nat) (st : RunState), t ∉ st.executed →
      t ∉ (runLoopOR p m fuel st).1.executed := by
  intro fuel
  induction fuel with
  | zero => intro st hst; exact hst
  | succ n ih =>
    intro st hst
    have hst2 : t ∉ (absorbAssistant st (p st.messages)).executed := by
      rw [absorbAssistant_executed]
      exact hst
    simp only [runLoopOR]
    split
    · exact ih _ hst2
    · split
      · simpa using processBatchOR_executed m t hl _ _ hst2
      · exact ih _ (processBatchOR_executed m t hl _ _ hst2)

theorem absorbGemContent_calls (st : GemRunState) (rc : GemContent) :
    (absorbGemContent st rc).calls = st.calls + 1 := by
  unfold absorbGemContent
  split <;> rfl

theorem absorbGemContent_executed (st : GemRunState) (rc : GemContent) :
    (absorbGemContent st rc).executed = st.executed := by
  unfold absorbGemContent
  split <;> rfl

theorem runLoopGem_calls (gp : GemProvider) (m : ToolMapping) :
    ∀ (fuel : Nat) (st : GemRunState), (runLoopGem gp m fuel st).1.calls ≤ st.calls + fuel := by
  intro fuel
  induction fuel with
  | zero => intro st; simp [runLoopGem]
  | succ n ih =>
    intro st
    simp only [runLoopGem]
    split
    · simp
    · split
      · refine le_trans (ih _) ?_
        rw [absorbGemContent_calls]
        omega
      · split
        · simp only [absorbGemContent_calls]
          omega
        · refine le_trans (ih _) ?_
          simp only [absorbGemContent_calls]
          omega

theorem processBatchGem_executed (m : ToolMapping) (t : String)
    (hl : lookupTool m t = none) :
    ∀ (tcs : List ToolCall), t ∉ (processBatchGem m tcs).2.2.1 := by
  intro tcs
  induction tcs with
  | nil => simp [processBatchGem]
  | cons tc rest ih =>
    simp only [processBatchGem]
    rcases hlk : lookupTool m tc.name with _ | f
    · simpa [gemHandleToolCall, hlk] using ih
    · simp only [gemHandleToolCall, hlk, if_true, List.mem_append, List.mem_singleton,
        List.cons_append, List.nil_append, List.mem_cons]
      rintro (heq | hin)
      · rw [heq] at hl
        rw [hl] at hlk
        exact Option.noConfusion hlk
      · exact ih hin

theorem runLoopGem_executed (gp : GemProvider) (m : ToolMapping) (t : String)
    (hl : lookupTool m t = none) :
    ∀ (fuel : Nat) (st : GemRunState), t ∉ st.executed →
      t ∉ (runLoopGem gp m fuel st).1.executed := by
  intro fuel
  induction fuel with
  | zero => intro st hst; exact hst
  | succ n ih =>
    intro st hst
    simp only [runLoopGem]
    split
    · simpa using hst
    · rename_i rc heq
      have hst2 : t ∉ (absorbGemContent st rc).executed := by
        rw [absorbGemContent_executed]
        exact hst
      split
      · exact ih _ hst2
      · rename_i tc tcs heq2
        have hb := processBatchGem_executed m t hl (tc :: tcs)
        split
        · simp only [List.mem_append]
          rintro (hin | hin)
          · exact hst2 hin
          · exact hb hin
        · refine ih _ ?_
          simp only [List.mem_append]
          rintro (hin | hin)
          · exact hst2 hin
          · exact hb hin

theorem handle_tool_call_unknown (m : ToolMapping) (tc : ToolCall)
    (h : lookupTool m tc.name = none) :
    handle_tool_call m tc = (.tool tc.id tc.name (unknownToolContent tc.name), false) := by
  unfold handle_tool_call
  rw [h]

theorem gemHandleToolCall_unknown (m : ToolMapping) (tc : ToolCall)
    (h : lookupTool m tc.name = none) :
    gemHandleToolCall m tc = (unknownToolContent tc.name, false) := by
  unfold gemHandleToolCall
  rw [h]

theorem lookupTool_filter_ne (m : ToolMapping) (t : String) :
    lookupTool (m.filter (fun p => p.1 ≠ t)) t = none := by
  induction m with
  | nil => rfl
  | cons a rest ih =>
    by_cases h : a.1 = t
    · simpa [List.filter_cons, h] using ih
    · simpa [List.filter_cons, h, lookupTool] using ih

/-! ### Progress-trace machinery for the monotonicity claim -/

theorem goodTrace_of_condRel (tr : List Event) (h : tr.Pairwise condRel) : GoodTrace tr := by
  intro kind key
  rw [projKey, List.pairwise_filterMap]
  refine h.imp ?_
  intro e1 e2 hc s1 hs1 s2 hs2
  split at hs1
  · rename_i hcond1
    cases hs1
    split at hs2
    · rename_i hcond2
      cases hs2
      exact hc (hcond1.1.trans hcond2.1.symm) (hcond1.2.trans hcond2.2.symm)
    · cases hs2
  · cases hs1

theorem condPairwise_append_disjoint (t1 t2 : List Event)
    (ks1 ks2 : List (EvKind × String))
    (h1 : t1.Pairwise condRel) (h2 : t2.Pairwise condRel)
    (hk1 : ∀ e ∈ t1, (e.kind, e.key) ∈ ks1) (hk2 : ∀ e ∈ t2, (e.kind, e.key) ∈ ks2)
    (hd : ∀ kk ∈ ks1, kk ∉ ks2) :
    (t1 ++ t2).Pairwise condRel := by
  rw [List.pairwise_append]
  refine ⟨h1, h2, ?_⟩
  intro a ha b hb hkind hkey
  exfalso
  have hak := hk1 a ha
  have hbk := hk2 b hb
  rw [hkind, hkey] at hak
  exact hd _ hak hbk

theorem mem_interleave_idx {α : Type} :
    ∀ (sched : List Nat) (ts : List (List α)) (a : α),
      a ∈ interleave sched ts → ∃ k l, ts.get? k = some l ∧ a ∈ l := by
  intro sched
  induction sched with
  | nil =>
    intro ts a ha
    rw [interleave] at ha
    obtain ⟨l, hl, hal⟩ := List.mem_flatten.mp ha
    obtain ⟨k, hk⟩ := List.get?_of_mem hl
    exact ⟨k, l, hk, hal⟩
  | cons i s ih =>
    intro ts a ha
    rw [interleave] at ha
    rcases hg : ts.get? i with _ | l
    · rw [hg] at ha
      exact ih ts a ha
    · rcases l with _ | ⟨e, rest⟩
      · rw [hg] at ha
        exact ih ts a ha
      · rw [hg] at ha
        have hbound : i < ts.length := by
          by_contra hb
          rw [List.get?_eq_none.mpr (Nat.le_of_not_lt hb)] at hg
          cases hg
        rcases List.mem_cons.mp ha with rfl | ha'
        · exact ⟨i, a :: rest, hg, List.mem_cons_self _ _⟩
        · obtain ⟨k, l', hk, hal'⟩ := ih _ a ha'
          by_cases hki : k = i
          · subst hki
            rw [List.get?_set_eq_of_lt _ hbound] at hk
            cases hk
            exact ⟨k, e :: rest, hg, List.mem_cons_of_mem _ hal'⟩
          · rw [List.get?_set_ne _ _ (fun hh => hki hh.symm)] at hk
            exact ⟨k, l', hk, hal'⟩

theorem pairwise_interleave {α : Type} (r : α → α → Prop) :
    ∀ (sched : List Nat) (ts : List (List α)),
      (∀ l ∈ ts, l.Pairwise r) →
      (∀ (i j : Nat) (li lj : List α), i ≠ j → ts.get? i = some li →
        ts.get? j = some lj → ∀ a ∈ li, ∀ b ∈ lj, r a b) →
      (interleave sched ts).Pairwise r := by
  intro sched
  induction sched with
  | nil =>
    intro ts h1 h2
    rw [interleave, List.pairwise_flatten]
    refine ⟨h1, ?_⟩
    rw [List.pairwise_iff_getElem]
    intro i j hi hj hij
    refine h2 i j _ _ (Nat.ne_of_lt hij) ?_ ?_
    · rw [List.get?_eq_getElem?, List.getElem?_eq_getElem hi]
    · rw [List.get?_eq_getElem?, List.getElem?_eq_getElem hj]
  | cons i s ih =>
    intro ts h1 h2
    rw [interleave]
    rcases hg : ts.get? i with _ | l
    · exact ih ts h1 h2
    · rcases l with _ | ⟨e, rest⟩
      · exact ih ts h1 h2
      · have hbound : i < ts.length := by
          by_contra hb
          rw [List.get?_eq_none.mpr (Nat.le_of_not_lt hb)] at hg
          cases hg
        have hmem : (e :: rest) ∈ ts := List.get?_mem hg
        refine List.pairwise_cons.mpr ⟨?_, ?_⟩
        · intro b hb
          obtain ⟨k, l', hk, hbl'⟩ := mem_interleave_idx s (ts.set i rest) b hb
          by_cases hki : k = i
          · subst hki
            rw [List.get?_set_eq_of_lt _ hbound] at hk
            cases hk
            exact (List.pairwise_cons.mp (h1 _ hmem)).1 b hbl'
          · rw [List.get?_set_ne _ _ (fun hh => hki hh.symm)] at hk
            exact h2 i k _ _ (fun hh => hki hh.symm) hg hk e (List.mem_cons_self _ _) b hbl'
        · refine ih (ts.set i rest) ?_ ?_
          · intro l' hl'
            rcases List.mem_or_eq_of_mem_set hl' with hold | rfl
            · exact h1 _ hold
            · exact (List.pairwise_cons.mp (h1 _ hmem)).2
          · intro k k' lk lk' hne hk hk'
            by_cases hki : k = i
            · subst hki
              rw [List.get?_set_eq_of_lt _ hbound] at hk
              cases hk
              rw [List.get?_set_ne _ _ hne] at hk'
              intro a ha b hb
              exact h2 k k' _ _ hne hg hk' a (List.mem_cons_of_mem _ ha) b hb
            · rw [List.get?_set_ne _ _ (fun hh => hki hh.symm)] at hk
              by_cases hki' : k' = i
              · subst hki'
                rw [List.get?_set_eq_of_lt _ hbound] at hk'
                cases hk'
                intro a ha b hb
                exact h2 k k' _ _ hne hk hg a ha b (List.mem_cons_of_mem _ hb)
              · rw [List.get?_set_ne _ _ (fun hh => hki' hh.symm)] at hk'
                exact h2 k k' _ _ hne hk hk'

theorem run_agent_events_shape (beh : Behavior) (d : List String) (idt p : String)
    (r : Bool) :
    (_run_agent beh d idt p r).events = [agEv idt "PROCESSING", agEv idt "COMPLETED"] ∨
    (_run_agent beh d idt p r).events = [agEv idt "PROCESSING", agEv idt "FAILED"] := by
  rcases h : beh idt p (runAgentToolNames d r) with _ | _
  · exact .inl (by simp [_run_agent, h])
  · exact .inr (by simp [_run_agent, h])

theorem run_agent_events_facts (beh : Behavior) (d : List String) (idt p : String)
    (r : Bool) :
    ∀ e ∈ (_run_agent beh d idt p r).events,
      e.kind = .agent ∧ e.key = idt ∧ 2 ≤ statusRank e.status := by
  intro e he
  rcases run_agent_events_shape beh d idt p r with h | h <;> rw [h] at he <;> fin_cases he
  · exact ⟨rfl, rfl, (by decide : 2 ≤ statusRank "PROCESSING")⟩
  · exact ⟨rfl, rfl, (by decide : 2 ≤ statusRank "COMPLETED")⟩
  · exact ⟨rfl, rfl, (by decide : 2 ≤ statusRank "PROCESSING")⟩
  · exact ⟨rfl, rfl, (by decide : 2 ≤ statusRank "FAILED")⟩

theorem run_agent_events_pairwise (beh : Behavior) (d : List String) (idt p : String)
    (r : Bool) : ((_run_agent beh d idt p r).events).Pairwise condRel := by
  rcases run_agent_events_shape beh d idt p r with h | h <;> rw [h] <;>
    refine List.pairwise_cons.mpr ⟨?_, List.pairwise_singleton _ _⟩ <;>
    intro e he <;> fin_cases he <;> intro _ _
  · exact (by decide : rankLt "PROCESSING" "COMPLETED")
  · exact (by decide : rankLt "PROCESSING" "FAILED")

theorem map_fst_zip_eq_take {α β : Type} :
    ∀ (l1 : List α) (l2 : List β), ((l1.zip l2).map Prod.fst) = l1.take l2.length := by
  intro l1
  induction l1 with
  | nil => intro l2; simp
  | cons a l ih =>
    intro l2
    cases l2 with
    | nil => simp
    | cons b l2 => simp [ih]

theorem interleave_workers_mem (beh : Behavior) (d : List String) (r : Bool)
    (tasks : List (String × String)) (sched : List Nat) (b : Event)
    (hb : b ∈ interleave sched (tasks.map fun p => (_run_agent beh d p.1 p.2 r).events)) :
    ∃ p ∈ tasks, b.kind = .agent ∧ b.key = p.1 ∧ 2 ≤ statusRank b.status := by
  obtain ⟨k, l, hk, hbl⟩ := mem_interleave_idx sched _ b hb
  rw [List.get?_map] at hk
  rcases hp : tasks.get? k with _ | p
  · rw [hp] at hk
    cases hk
  · rw [hp] at hk
    cases hk
    have hf := run_agent_events_facts beh d p.1 p.2 r b hbl
    exact ⟨p, List.get?_mem hp, hf.1, hf.2.1, hf.2.2⟩

theorem workers_cross (beh : Behavior) (d : List String) (r : Bool)
    (tasks : List (String × String)) (hnd : (tasks.map Prod.fst).Nodup) :
    ∀ (i j : Nat) (li lj : List Event), i ≠ j →
      (tasks.map fun p => (_run_agent beh d p.1 p.2 r).events).get? i = some li →
      (tasks.map fun p => (_run_agent beh d p.1 p.2 r).events).get? j = some lj →
      ∀ a ∈ li, ∀ b ∈ lj, condRel a b := by
  intro i j li lj hne hi hj a ha b hb
  rw [List.get?_map] at hi hj
  rcases hpi : tasks.get? i with _ | pi
  · rw [hpi] at hi
    cases hi
  · rcases hpj : tasks.get? j with _ | pj
    · rw [hpj] at hj
      cases hj
    · rw [hpi] at hi
      rw [hpj] at hj
      cases hi
      cases hj
      have hfa := run_agent_events_facts beh d pi.1 pi.2 r a ha
      have hfb := run_agent_events_facts beh d pj.1 pj.2 r b hb
      intro _ hkey
      exfalso
      apply hne
      have h1 : (tasks.map Prod.fst).get? i = some pi.1 := by
        rw [List.get?_map, hpi]
        rfl
      have h2 : (tasks.map Prod.fst).get? j = some pj.1 := by
        rw [List.get?_map, hpj]
        rfl
      have hkeq : pi.1 = pj.1 := by rw [← hfa.2.1, ← hfb.2.1, hkey]
      have hlen : i < (tasks.map Prod.fst).length := by
        rcases List.get?_eq_some.mp h1 with ⟨hh, _⟩
        exact hh
      apply List.getElem?_inj hlen hnd
      rw [← List.get?_eq_getElem?, ← List.get?_eq_getElem?, h1, h2, hkeq]

theorem qgen_events_cases (jp : JsonParse) (beh : Behavior) (d : List String)
    (ui : String) :
    (generate_questions jp beh d ui).events =
      [stEv "question_generation" "IN_PROGRESS", agEv "question_gen" "PROCESSING"] ∨
    (generate_questions jp beh d ui).events =
      [stEv "question_generation" "IN_PROGRESS", agEv "question_gen" "PROCESSING",
       agEv "question_gen" "COMPLETED", stEv "question_generation" "COMPLETED"] := by
  unfold generate_questions
  split
  · exact .inl rfl
  · split
    · exact .inr rfl
    · split
      · exact .inl rfl
      · split
        · exact .inr rfl
        · exact .inr rfl

theorem qgen_events_pairwise (jp : JsonParse) (beh : Behavior) (d : List String)
    (ui : String) : ((generate_questions jp beh d ui).events).Pairwise condRel := by
  rcases qgen_events_cases jp beh d ui with h | h <;> rw [h] <;> decide

theorem qgen_events_keys (jp : JsonParse) (beh : Behavior) (d : List String)
    (ui : String) :
    ∀ e ∈ (generate_questions jp beh d ui).events, (e.kind, e.key) ∈ qgenKeys := by
  intro e he
  rcases qgen_events_cases jp beh d ui with h | h <;> rw [h] at he <;>
    fin_cases he <;> decide

theorem synth_events_cases (beh : Behavior) (rs : List AgentRunResult) :
    (first_synthesis beh rs).events =
      [stEv "first_synthesis" "IN_PROGRESS", agEv "synthesis" "PROCESSING",
       agEv "synthesis" "COMPLETED", stEv "first_synthesis" "COMPLETED"] ∨
    (first_synthesis beh rs).events =
      [stEv "first_synthesis" "IN_PROGRESS", agEv "synthesis" "PROCESSING",
       agEv "synthesis" "FAILED", stEv "first_synthesis" "FAILED"] := by
  rcases h : beh "synthesis" (synthesis_prompt (agentResponsesText rs)) [] with _ | _
  · exact .inl (by simp [first_synthesis, h])
  · exact .inr (by simp [first_synthesis, h])

theorem synth_events_pairwise (beh : Behavior) (rs : List AgentRunResult) :
    ((first_synthesis beh rs).events).Pairwise condRel := by
  rcases synth_events_cases beh rs with h | h <;> rw [h] <;> decide

theorem synth_events_keys (beh : Behavior) (rs : List AgentRunResult) :
    ∀ e ∈ (first_synthesis beh rs).events, (e.kind, e.key) ∈ synthKeys := by
  intro e he
  rcases synth_events_cases beh rs with h | h <;> rw [h] at he <;>
    fin_cases he <;> decide

theorem final_events_cases (beh : Behavior) (oq draft : String)
    (vrs : List AgentRunResult) :
    (final_synthesis beh oq draft vrs).events =
      [stEv "final_synthesis" "IN_PROGRESS", agEv "final" "PROCESSING",
       agEv "final" "COMPLETED", stEv "final_synthesis" "COMPLETED"] ∨
    (final_synthesis beh oq draft vrs).events =
      [stEv "final_synthesis" "IN_PROGRESS", agEv "final" "PROCESSING",
       agEv "final" "FAILED", stEv "final_synthesis" "FAILED"] := by
  simp only [final_synthesis]
  repeat' split
  all_goals first
  | exact .inl rfl
  | exact .inr rfl

theorem final_events_pairwise (beh : Behavior) (oq draft : String)
    (vrs : List AgentRunResult) :
    ((final_synthesis beh oq draft vrs).events).Pairwise condRel := by
  rcases final_events_cases beh oq draft vrs with h | h <;> rw [h] <;> decide

theorem final_events_keys (beh : Behavior) (oq draft : String)
    (vrs : List AgentRunResult) :
    ∀ e ∈ (final_synthesis beh oq draft vrs).events, (e.kind, e.key) ∈ finalKeys := by
  intro e he
  rcases final_events_cases beh oq draft vrs with h | h <;> rw [h] at he <;>
    fin_cases he <;> decide

theorem run_parallel_events_eq (beh : Behavior) (d : List String) (qs : List String)
    (images : Option (List ImageDict)) (sched order : List Nat) (timedOut : Bool) :
    (run_parallel_agents beh d qs images sched order timedOut).events =
      ([stEv "parallel_research" "IN_PROGRESS"] ++
        agent_names.map (fun n => agEv n "QUEUED")) ++
      interleave sched
        ((agent_names.zip qs).map fun p => (_run_agent beh d p.1 p.2 false).events) ++
      (if timedOut then [] else [stEv "parallel_research" "COMPLETED"]) := by
  unfold run_parallel_agents
  cases timedOut <;> simp <;> rfl

theorem run_parallel_events_pairwise (beh : Behavior) (d : List String)
    (qs : List String) (images : Option (List ImageDict)) (sched order : List Nat)
    (timedOut : Bool) :
    ((run_parallel_agents beh d qs images sched order timedOut).events).Pairwise condRel := by
  rw [run_parallel_events_eq]
  have hnd : ((agent_names.zip qs).map Prod.fst).Nodup := by
    rw [map_fst_zip_eq_take]
    exact List.Nodup.sublist (List.take_sublist _ _) (by decide)
  have hinter : (interleave sched ((agent_names.zip qs).map fun p =>
      (_run_agent beh d p.1 p.2 false).events)).Pairwise condRel := by
    refine pairwise_interleave condRel sched _ ?_ (workers_cross beh d false _ hnd)
    intro l hl
    obtain ⟨p, _, rfl⟩ := List.mem_map.mp hl
    exact run_agent_events_pairwise beh d p.1 p.2 false
  rw [List.pairwise_append]
  refine ⟨?_, ?_, ?_⟩
  · rw [List.pairwise_append]
    refine ⟨by decide, hinter, ?_⟩
    intro a ha b hb
    obtain ⟨p, _, hbk, _, hbrank⟩ := interleave_workers_mem beh d false _ sched b hb
    rcases List.mem_append.mp ha with h | h
    · fin_cases h
      intro hkind _
      rw [hbk] at hkind
      exact EvKind.noConfusion hkind
    · obtain ⟨n, _, rfl⟩ := List.mem_map.mp h
      intro _ _
      show statusRank (agEv n "QUEUED").status < statusRank b.status
      exact lt_of_lt_of_le (by decide : statusRank "QUEUED" < 2) hbrank
  · split
    · exact List.Pairwise.nil
    · exact List.pairwise_singleton _ _
  · intro a ha b hb
    split at hb
    · cases hb
    · fin_cases hb
      rcases List.mem_append.mp ha with h | h
      · rcases List.mem_append.mp h with h1 | h1
        · fin_cases h1
          intro _ _
          exact (by decide : rankLt "IN_PROGRESS" "COMPLETED")
        · obtain ⟨n, _, rfl⟩ := List.mem_map.mp h1
          intro hkind _
          exact EvKind.noConfusion hkind
      · obtain ⟨p, _, hak, _, _⟩ := interleave_workers_mem beh d false _ sched a h
        intro hkind _
        rw [hak] at hkind
        exact EvKind.noConfusion hkind

theorem run_parallel_events_keys (beh : Behavior) (d : List String) (qs : List String)
    (images : Option (List ImageDict)) (sched order : List Nat) (timedOut : Bool) :
    ∀ e ∈ (run_parallel_agents beh d qs images sched order timedOut).events,
      (e.kind, e.key) ∈ researchKeys := by
  rw [run_parallel_events_eq]
  intro e he
  rcases List.mem_append.mp he with h | h
  · rcases List.mem_append.mp h with h1 | h1
    · rcases List.mem_append.mp h1 with h2 | h2
      · fin_cases h2
        decide
      · obtain ⟨n, hn, rfl⟩ := List.mem_map.mp h2
        fin_cases hn <;> decide
    · obtain ⟨p, hp, hk, hkey, _⟩ := interleave_workers_mem beh d false _ sched e h1
      rcases p with ⟨pa, pb⟩
      have hpa : pa ∈ agent_names := (List.mem_zip hp).1
      rw [hk, hkey]
      fin_cases hpa <;> simp [researchKeys]
  · split at h
    · cases h
    · fin_cases h
      decide

theorem run_validation_events_eq (beh : Behavior) (d : List String) (oq draft : String)
    (sched order : List Nat) (timedOut : Bool) :
    (run_validation beh d oq draft sched order timedOut).events =
      ([stEv "validation" "IN_PROGRESS"] ++
        [agEv "validator_1" "QUEUED", agEv "validator_2" "QUEUED"]) ++
      interleave sched
        (([("validator_1", validation_prompt_1 oq draft),
           ("validator_2", validation_prompt_2 oq draft)]).map
          fun p => (_run_agent beh d p.1 p.2 true).events) ++
      (if timedOut then [] else [stEv "validation" "COMPLETED"]) := by
  unfold run_validation
  cases timedOut <;> simp

theorem run_validation_events_pairwise (beh : Behavior) (d : List String)
    (oq draft : String) (sched order : List Nat) (timedOut : Bool) :
    ((run_validation beh d oq draft sched order timedOut).events).Pairwise condRel := by
  rw [run_validation_events_eq]
  have hnd : (([("validator_1", validation_prompt_1 oq draft),
      ("validator_2", validation_prompt_2 oq draft)]).map Prod.fst).Nodup := by
    rw [show ([("validator_1", validation_prompt_1 oq draft),
      ("validator_2", validation_prompt_2 oq draft)]).map Prod.fst
        = ["validator_1", "validator_2"] from rfl]
    decide
  have hinter : (interleave sched (([("validator_1", validation_prompt_1 oq draft),
      ("validator_2", validation_prompt_2 oq draft)]).map fun p =>
      (_run_agent beh d p.1 p.2 true).events)).Pairwise condRel := by
    refine pairwise_interleave condRel sched _ ?_ (workers_cross beh d true _ hnd)
    intro l hl
    obtain ⟨p, _, rfl⟩ := List.mem_map.mp hl
    exact run_agent_events_pairwise beh d p.1 p.2 true
  rw [List.pairwise_append]
  refine ⟨?_, ?_, ?_⟩
  · rw [List.pairwise_append]
    refine ⟨by decide, hinter, ?_⟩
    intro a ha b hb
    obtain ⟨p, _, hbk, _, hbrank⟩ := interleave_workers_mem beh d true _ sched b hb
    rcases List.mem_append.mp ha with h | h
    · fin_cases h
      intro hkind _
      rw [hbk] at hkind
      exact EvKind.noConfusion hkind
    · fin_cases h <;>
        · intro _ _
          exact lt_of_lt_of_le (by decide : statusRank "QUEUED" < 2) hbrank
  · split
    · exact List.Pairwise.nil
    · exact List.pairwise_singleton _ _
  · intro a ha b hb
    split at hb
    · cases hb
    · fin_cases hb
      rcases List.mem_append.mp ha with h | h
      · rcases List.mem_append.mp h with h1 | h1
        · fin_cases h1
          intro _ _
          exact (by decide : rankLt "IN_PROGRESS" "COMPLETED")
        · fin_cases h1 <;>
            · intro hkind _
              exact EvKind.noConfusion hkind
      · obtain ⟨p, _, hak, _, _⟩ := interleave_workers_mem beh d true _ sched a h
        intro hkind _
        rw [hak] at hkind
        exact EvKind.noConfusion hkind

theorem run_validation_events_keys (beh : Behavior) (d : List String) (oq draft : String)
    (sched order : List Nat) (timedOut : Bool) :
    ∀ e ∈ (run_validation beh d oq draft sched order timedOut).events,
      (e.kind, e.key) ∈ valKeys := by
  rw [run_validation_events_eq]
  intro e he
  rcases List.mem_append.mp he with h | h
  · rcases List.mem_append.mp h with h1 | h1
    · rcases List.mem_append.mp h1 with h2 | h2
      · fin_cases h2
        decide
      · fin_cases h2 <;> decide
    · obtain ⟨p, hp, hk, hkey, _⟩ := interleave_workers_mem beh d true _ sched e h1
      rcases p with ⟨pa, pb⟩
      have hpa : pa ∈ ["validator_1", "validator_2"] := by
        rcases List.mem_cons.mp hp with h1 | h1
        · rw [show pa = "validator_1" from congrArg Prod.fst h1]
          simp
        · rcases List.mem_singleton.mp h1 with h1
          rw [show pa = "validator_2" from congrArg Prod.fst h1]
          simp
      rw [hk, hkey]
      fin_cases hpa <;> simp [valKeys]
  · split at h
    · cases h
    · fin_cases h
      decide

theorem condPairwise_concat5 (t1 t2 t3 t4 t5 : List Event)
    (h1 : t1.Pairwise condRel) (h2 : t2.Pairwise condRel) (h3 : t3.Pairwise condRel)
    (h4 : t4.Pairwise condRel) (h5 : t5.Pairwise condRel)
    (k1 : ∀ e ∈ t1, (e.kind, e.key) ∈ qgenKeys)
    (k2 : ∀ e ∈ t2, (e.kind, e.key) ∈ researchKeys)
    (k3 : ∀ e ∈ t3, (e.kind, e.key) ∈ synthKeys)
    (k4 : ∀ e ∈ t4, (e.kind, e.key) ∈ valKeys)
    (k5 : ∀ e ∈ t5, (e.kind, e.key) ∈ finalKeys) :
    (t1 ++ t2 ++ t3 ++ t4 ++ t5).Pairwise condRel := by
  have h12 : (t1 ++ t2).Pairwise condRel :=
    condPairwise_append_disjoint t1 t2 qgenKeys researchKeys h1 h2 k1 k2
      (by decide)
  have k12 : ∀ e ∈ t1 ++ t2, (e.kind, e.key) ∈ qgenKeys ++ researchKeys := by
    intro e he
    rcases List.mem_append.mp he with h | h
    · exact List.mem_append_left _ (k1 e h)
    · exact List.mem_append_right _ (k2 e h)
  have h123 : (t1 ++ t2 ++ t3).Pairwise condRel :=
    condPairwise_append_disjoint _ t3 (qgenKeys ++ researchKeys) synthKeys h12 h3 k12 k3
      (by decide)
  have k123 : ∀ e ∈ t1 ++ t2 ++ t3,
      (e.kind, e.key) ∈ qgenKeys ++ researchKeys ++ synthKeys := by
    intro e he
    rcases List.mem_append.mp he with h | h
    · exact List.mem_append_left _ (k12 e h)
    · exact List.mem_append_right _ (k3 e h)
  have h1234 : (t1 ++ t2 ++ t3 ++ t4).Pairwise condRel :=
    condPairwise_append_disjoint _ t4 (qgenKeys ++ researchKeys ++ synthKeys) valKeys
      h123 h4 k123 k4 (by decide)
  have k1234 : ∀ e ∈ t1 ++ t2 ++ t3 ++ t4,
      (e.kind, e.key) ∈ qgenKeys ++ researchKeys ++ synthKeys ++ valKeys := by
    intro e he
    rcases List.mem_append.mp he with h | h
    · exact List.mem_append_left _ (k123 e h)
    · exact List.mem_append_right _ (k4 e h)
  exact condPairwise_append_disjoint _ t5
    (qgenKeys ++ researchKeys ++ synthKeys ++ valKeys) finalKeys h1234 h5 k1234 k5
    (by decide)

/-! ## Claim theorems -/

/-- C10: `orchestrate`'s result bundle and progress trace are independent of
its `images` argument — `run_parallel_agents` accepts the images and never
forwards them to any agent run, so every stage sees identical prompts and the
outcome is identical for any two images values. -/
theorem C10_orchestrate_independent_of_images (beh : Behavior) (jsonParse : JsonParse)
    (discovered : List String) (user_input : String) (sc : Scheduling)
    (images1 images2 : Option (List ImageDict)) :
    orchestrate beh jsonParse discovered user_input images1 sc =
      orchestrate beh jsonParse discovered user_input images2 sc := rfl

/-- C7 counterexample: `first_synthesis` does not re-sort the labeled
parallel results — for the completion-order input listing verification before
research, the merged block lists VERIFICATION first, not the canonical
research-first order the claim requires. -/
theorem C7_counterexample :
    agentResponsesText
        [⟨"verification", "success", "V", 1⟩, ⟨"research", "success", "R", 1⟩] =
      "=== VERIFICATION AGENT ===\nV\n\n=== RESEARCH AGENT ===\nR\n\n" ∧
    agentResponsesText
        [⟨"verification", "success", "V", 1⟩, ⟨"research", "success", "R", 1⟩] ≠
      agentResponsesText
        [⟨"research", "success", "R", 1⟩, ⟨"verification", "success", "V", 1⟩] := by
  constructor
  · rfl
  · decide

/-- C7 (amended): the merged text block consumed by `first_synthesis` lists
the labeled sections in the order of the input result list (the completion
order), each labeled with the canonical display name of its `agent_id`; no
re-sorting into canonical agent order takes place. -/
theorem C7_merge_follows_input_order (rs : List AgentRunResult) :
    agentResponsesText rs = concatAll (rs.map sectionFor) := by
  simpa using foldl_sections rs ""

/-- C3 counterexample: a provider/completion failure raised by the underlying
agent run propagates out of `generate_questions` — only
`json.JSONDecodeError` and `ValueError` are caught — so the claim that it
never raises and always recovers via the fallback is false. -/
theorem C3_counterexample :
    (generate_questions exParseErr exBehExn ["search"] "q").result =
      .raised "Exception: LLM call failed: boom" := rfl

/-- C3 (amended): `generate_questions` recovers via the deterministic
fallback exactly on JSON decode errors and on parsed values whose `len()` is
defined and differs from 4; a parsed value of length 4 is returned as is.  A
provider/completion failure raised by `agent.run` propagates, and a parsed
value with no `len()` (number, boolean, null) raises an uncaught `TypeError`. -/
theorem C3_generate_questions_error_paths (jsonParse : JsonParse) (beh : Behavior)
    (discovered : List String) (user_input : String) :
    (∀ m, beh "question_gen" (question_prompt user_input) (qgenToolNames discovered) = .exn m →
      (generate_questions jsonParse beh discovered user_input).result =
        .raised ("Exception: " ++ m)) ∧
    (∀ r t e, beh "question_gen" (question_prompt user_input) (qgenToolNames discovered) = .ok r t →
      jsonParse r.trim = .error e →
      (generate_questions jsonParse beh discovered user_input).result =
        .ok (.arr ((fallback_questions user_input).map .str))) ∧
    (∀ r t v n, beh "question_gen" (question_prompt user_input) (qgenToolNames discovered) = .ok r t →
      jsonParse r.trim = .ok v → pyLen v = some n → n ≠ 4 →
      (generate_questions jsonParse beh discovered user_input).result =
        .ok (.arr ((fallback_questions user_input).map .str))) ∧
    (∀ r t v, beh "question_gen" (question_prompt user_input) (qgenToolNames discovered) = .ok r t →
      jsonParse r.trim = .ok v → pyLen v = none →
      (generate_questions jsonParse beh discovered user_input).result =
        .raised "TypeError: object has no length") ∧
    (∀ r t v, beh "question_gen" (question_prompt user_input) (qgenToolNames discovered) = .ok r t →
      jsonParse r.trim = .ok v → pyLen v = some 4 →
      (generate_questions jsonParse beh discovered user_input).result = .ok v) := by
  refine ⟨fun m hb => ?_, fun r t e hb hp => ?_, fun r t v n hb hp hl h4 => ?_,
    fun r t v hb hp hl => ?_, fun r t v hb hp hl => ?_⟩
  · simp [generate_questions, hb]
  · simp [generate_questions, hb, hp]
  · simp [generate_questions, hb, hp, hl, h4]
  · simp [generate_questions, hb, hp, hl]
  · simp [generate_questions, hb, hp, hl]

/-- Witness for C3: at a concrete decode failure the fallback list is
returned without raising. -/
theorem C3_witness :
    (generate_questions exParseErr exBehOk ["search"] "q").result =
      .ok (.arr ((fallback_questions "q").map .str)) :=
  (C3_generate_questions_error_paths exParseErr exBehOk ["search"] "q").2.1
    "resp-question_gen" 1 "Expecting value" rfl rfl

/-- C4 counterexample: the response text `"5"` is well-formed JSON and is
not an array of length 4, yet the fallback is not used — `len(5)` raises an
uncaught `TypeError` — refuting the claim that every malformed or
non-4-length response is recovered by the fallback. -/
theorem C4_counterexample :
    (generate_questions exParseNum exBehOk ["search"] "query").result =
      .raised "TypeError: object has no length" := rfl

/-- C4 (amended): a stage-1 response parsing to a 4-element JSON array of
strings is returned exactly, unmodified and in order; a malformed response
(decode error) or a parsed value with a defined length other than 4 yields
the fallback, which is a fixed pure string substitution of the query; a
parsed value with no defined length instead raises `TypeError`. -/
theorem C4_questions_value_behavior (jsonParse : JsonParse) (beh : Behavior)
    (discovered : List String) (user_input : String) :
    (∀ r t q1 q2 q3 q4, beh "question_gen" (question_prompt user_input) (qgenToolNames discovered) = .ok r t →
      jsonParse r.trim = .ok (.arr [.str q1, .str q2, .str q3, .str q4]) →
      (generate_questions jsonParse beh discovered user_input).result =
        .ok (.arr [.str q1, .str q2, .str q3, .str q4])) ∧
    (∀ r t e, beh "question_gen" (question_prompt user_input) (qgenToolNames discovered) = .ok r t →
      jsonParse r.trim = .error e →
      (generate_questions jsonParse beh discovered user_input).result =
        .ok (.arr ((fallback_questions user_input).map .str))) ∧
    (∀ r t v n, beh "question_gen" (question_prompt user_input) (qgenToolNames discovered) = .ok r t →
      jsonParse r.trim = .ok v → pyLen v = some n → n ≠ 4 →
      (generate_questions jsonParse beh discovered user_input).result =
        .ok (.arr ((fallback_questions user_input).map .str))) ∧
    fallback_questions user_input =
      ["Research comprehensive information about: " ++ user_input,
       "Analyze and provide insights about: " ++ user_input,
       "Find alternative perspectives on: " ++ user_input,
       "Verify and cross-check facts about: " ++ user_input] := by
  refine ⟨fun r t q1 q2 q3 q4 hb hp => ?_, fun r t e hb hp => ?_,
    fun r t v n hb hp hl h4 => ?_, rfl⟩
  · simp [generate_questions, hb, hp, pyLen]
  · simp [generate_questions, hb, hp]
  · simp [generate_questions, hb, hp, hl, h4]

/-- Witness for C4: a concrete 4-element array response is returned
unmodified. -/
theorem C4_witness :
    (generate_questions exParseArr4 exBehOk ["search"] "q").result =
      .ok (.arr [.str "qa", .str "qb", .str "qc", .str "qd"]) :=
  (C4_questions_value_behavior exParseArr4 exBehOk ["search"] "q").1
    "resp-question_gen" 1 "qa" "qb" "qc" "qd" rfl rfl

/-- C2 counterexample: `run_parallel_agents` submits every research task with
`remove_tools=False`, so with a discovered tool set of search, calculator and
`mark_task_complete` every research agent still runs with all three tools —
refuting the claim that each is restricted to search and calculator only. -/
theorem C2_counterexample :
    (run_parallel_agents exBehEcho ["search", "calculator", "mark_task_complete"]
        ["a", "b", "c", "d"] none [] [0, 1, 2, 3] false).result
      = .ok [⟨"research", "success", "search,calculator,mark_task_complete", 0⟩,
             ⟨"analysis", "success", "search,calculator,mark_task_complete", 0⟩,
             ⟨"alternatives", "success", "search,calculator,mark_task_complete", 0⟩,
             ⟨"verification", "success", "search,calculator,mark_task_complete", 0⟩] := rfl

/-- C2 (amended): the four parallel research agents run with the full
discovered tool set (the `remove_tools=False` path performs no removal); the
restriction to the search and calculator subset is applied to the two
validation agents, which are submitted with `remove_tools=True`. -/
theorem C2_research_unrestricted_validation_restricted (beh : Behavior)
    (discovered : List String) (images : Option (List ImageDict)) (sched : List Nat)
    (q1 q2 q3 q4 oq draft : String) :
    (run_parallel_agents beh discovered [q1, q2, q3, q4] images sched [0, 1, 2, 3] false).result
      = .ok [(_run_agent beh discovered "research" q1 false).result,
             (_run_agent beh discovered "analysis" q2 false).result,
             (_run_agent beh discovered "alternatives" q3 false).result,
             (_run_agent beh discovered "verification" q4 false).result] ∧
    runAgentToolNames discovered false = discovered ∧
    (run_validation beh discovered oq draft sched [0, 1] false).result
      = .ok [(_run_agent beh discovered "validator_1" (validation_prompt_1 oq draft) true).result,
             (_run_agent beh discovered "validator_2" (validation_prompt_2 oq draft) true).result] ∧
    runAgentToolNames discovered true
      = discovered.filter (fun n => n == "search" || n == "calculator") :=
  ⟨rfl, rfl, rfl, rfl⟩

/-- C1 counterexample: a batch timeout in `run_parallel_agents` is raised by
the `as_completed` iterator outside the per-future `try`, so it propagates —
no list of 4 error-padded results is returned. -/
theorem C1_counterexample :
    (run_parallel_agents exBehOk ["search"] ["a", "b", "c", "d"] none [] [0, 1, 2, 3]
        true).result = .raised "TimeoutError" := rfl

/-- C1 (amended): without a batch timeout, both fan-out stages return exactly
W results (W=4 research, W=2 validation) for every per-task success/exception
combination and every completion order, each result tagged with the
identifier of the agent that produced it; a batch timeout instead raises
`TimeoutError` out of the batch call, returning no list at all. -/
theorem C1_fanout_batch_shape (beh : Behavior) (discovered : List String)
    (images : Option (List ImageDict)) (sched : List Nat)
    (q1 q2 q3 q4 oq draft : String) (rOrder vOrder : List Nat)
    (hr : rOrder.Perm (List.range 4)) (hv : vOrder.Perm (List.range 2)) :
    (∃ rs, (run_parallel_agents beh discovered [q1, q2, q3, q4] images sched rOrder
          false).result = .ok rs ∧
        rs.length = 4 ∧
        rs.map (·.agent_id) = rOrder.filterMap (agent_names.get? ·)) ∧
    (run_parallel_agents beh discovered [q1, q2, q3, q4] images sched rOrder true).result
      = .raised "TimeoutError" ∧
    (∃ vs, (run_validation beh discovered oq draft sched vOrder false).result = .ok vs ∧
        vs.length = 2 ∧
        vs.map (·.agent_id) = vOrder.filterMap (["validator_1", "validator_2"].get? ·)) ∧
    (run_validation beh discovered oq draft sched vOrder true).result
      = .raised "TimeoutError" := by
  have hrm : ∀ i ∈ rOrder, i < 4 := fun i hi => by
    have := hr.mem_iff.mp hi
    simpa [List.mem_range] using this
  have hvm : ∀ i ∈ vOrder, i < 2 := fun i hi => by
    have := hv.mem_iff.mp hi
    simpa [List.mem_range] using this
  refine ⟨⟨_, run_parallel_agents_ok beh discovered images sched q1 q2 q3 q4 rOrder,
      ?_, ?_⟩, rfl, ⟨_, run_validation_ok beh discovered oq draft sched vOrder, ?_, ?_⟩, rfl⟩
  · rw [filterMap_get?_length _ _ (by simpa using hrm)]
    exact hr.length_eq.trans (by simp)
  · rw [List.map_filterMap]
    refine List.filterMap_congr fun i hi => ?_
    have h4 : i < 4 := hrm i hi
    interval_cases i <;>
      simp [_run_agent_agent_id, agent_names]
  · rw [filterMap_get?_length _ _ (by simpa using hvm)]
    exact hv.length_eq.trans (by simp)
  · rw [List.map_filterMap]
    refine List.filterMap_congr fun i hi => ?_
    have h2 : i < 2 := hvm i hi
    interval_cases i <;>
      simp [_run_agent_agent_id]

/-- Witness for C1: a concrete non-identity completion order yields a
complete, correctly tagged result set of width 4 and 2. -/
theorem C1_witness :
    (∃ rs, (run_parallel_agents exBehOk ["search"] ["a", "b", "c", "d"] none [] [2, 0, 3, 1]
          false).result = .ok rs ∧
        rs.length = 4 ∧
        rs.map (·.agent_id) = [2, 0, 3, 1].filterMap (agent_names.get? ·)) ∧
    (run_parallel_agents exBehOk ["search"] ["a", "b", "c", "d"] none [] [2, 0, 3, 1]
        true).result = .raised "TimeoutError" ∧
    (∃ vs, (run_validation exBehOk ["search"] "oq" "draft" [] [1, 0] false).result = .ok vs ∧
        vs.length = 2 ∧
        vs.map (·.agent_id) = [1, 0].filterMap (["validator_1", "validator_2"].get? ·)) ∧
    (run_validation exBehOk ["search"] "oq" "draft" [] [1, 0] true).result
      = .raised "TimeoutError" :=
  C1_fanout_batch_shape exBehOk ["search"] none [] "a" "b" "c" "d" "oq" "draft"
    [2, 0, 3, 1] [1, 0] (by decide) (by decide)

/-- C5 counterexample: the Gemini loop does not stop at the completion
sentinel — in a batch requesting `mark_task_complete` first and another tool
after it, the later call is still invoked and executed before the run
returns, refuting the claim that no call queued after the sentinel is
invoked. -/
theorem C5_counterexample :
    (GeminiAgent_run exGemProviderBatch exMappingDoThing "q" none 5).completed = true ∧
    (GeminiAgent_run exGemProviderBatch exMappingDoThing "q" none 5).finalState.invoked
      = ["mark_task_complete", "do_thing"] ∧
    (GeminiAgent_run exGemProviderBatch exMappingDoThing "q" none 5).finalState.executed
      = ["do_thing"] := ⟨rfl, rfl, rfl⟩

/-- C5 (amended): on a batch containing the completion sentinel, both agents
mark the run complete and return the accumulated transcript, but they differ
on the queued calls: `OpenRouterAgent.run` invokes only the calls up to and
including the first sentinel and returns immediately, while
`GeminiAgent.run` invokes every call of the batch (including those queued
after the sentinel) and returns only once the batch is finished. -/
theorem C5_sentinel_batch_semantics (m : ToolMapping) (tcs : List ToolCall) (st : RunState)
    (provider : Provider) (gp : GemProvider) (sp ui gui : String)
    (imgs gimgs : Option (List ImageDict)) (n gn : Nat) :
    ((processBatchOR m tcs st).1.invoked = st.invoked ++ upToSentinel (tcs.map (·.name))) ∧
    ((processBatchOR m tcs st).2 = (tcs.map (·.name)).contains "mark_task_complete") ∧
    ((processBatchGem m tcs).2.1 = tcs.map (·.name)) ∧
    ((processBatchGem m tcs).2.2.2 = (tcs.map (·.name)).contains "mark_task_complete") ∧
    ((ORAgent_run provider m sp ui imgs n).completed = true →
      (ORAgent_run provider m sp ui imgs n).result =
        joinBlank (ORAgent_run provider m sp ui imgs n).finalState.transcript) ∧
    ((GeminiAgent_run gp m gui gimgs gn).completed = true →
      (GeminiAgent_run gp m gui gimgs gn).result =
        joinBlank (GeminiAgent_run gp m gui gimgs gn).finalState.transcript) := by
  refine ⟨processBatchOR_invoked m tcs st, processBatchOR_done m tcs st,
    processBatchGem_invoked m tcs, processBatchGem_done m tcs, fun h => ?_, fun h => ?_⟩
  · rw [ORAgent_run_result_eq]
    simp [h]
  · rw [GeminiAgent_run_result_eq]
    simp [h]

/-- Witness for C5: a concrete completed OpenRouter run returns the joined
transcript. -/
theorem C5_witness :
    (ORAgent_run exProviderSentinel [] "sys" "hi" none 3).result =
      joinBlank (ORAgent_run exProviderSentinel [] "sys" "hi" none 3).finalState.transcript :=
  (C5_sentinel_batch_semantics [] [] ⟨[], [], [], [], 0⟩ exProviderSentinel (fun _ => none)
    "sys" "hi" "g" none none 3 0).2.2.2.2.1 rfl

/-- C6 counterexample: a Gemini response with no candidates breaks the loop
on the first iteration, and with nothing accumulated the run returns the
exhausted-indicator literal even though the iteration cap (10) was not
reached — where the claim requires the blank-line join of the (empty)
accumulated segments, i.e. the empty string. -/
theorem C6_counterexample :
    (GeminiAgent_run (fun _ => none) [] "q" none 10).result = gemExhausted ∧
    (GeminiAgent_run (fun _ => none) [] "q" none 10).finalState.transcript = [] ∧
    (GeminiAgent_run (fun _ => none) [] "q" none 10).finalState.calls = 1 ∧
    (GeminiAgent_run (fun _ => none) [] "q" none 10).completed = false ∧
    gemExhausted ≠ joinBlank [] := ⟨rfl, rfl, rfl, rfl, by decide⟩

/-- C6 (amended): both run loops call the provider at most `max_iterations`
times for every provider behaviour; the OpenRouter transcript is exactly the
non-empty assistant text segments of the final conversation in turn order;
and the returned text is the blank-line join of the accumulated transcript,
except when the loop ends without a completion signal and with an empty
transcript — by exhausting the cap, or for Gemini also by an
empty-candidates response that breaks the loop early — in which case the
literal exhausted-indicator string is returned. -/
theorem C6_run_loop_bounds (provider : Provider) (gp : GemProvider)
    (m gm : ToolMapping) (sp ui gui : String)
    (imgs gimgs : Option (List ImageDict)) (n gn : Nat) :
    ((ORAgent_run provider m sp ui imgs n).finalState.calls ≤ n) ∧
    ((ORAgent_run provider m sp ui imgs n).result =
      if (ORAgent_run provider m sp ui imgs n).completed = false ∧
          (ORAgent_run provider m sp ui imgs n).finalState.transcript = [] then orExhausted
      else joinBlank (ORAgent_run provider m sp ui imgs n).finalState.transcript) ∧
    ((ORAgent_run provider m sp ui imgs n).finalState.transcript =
      assistantTexts (ORAgent_run provider m sp ui imgs n).finalState.messages) ∧
    ((GeminiAgent_run gp gm gui gimgs gn).finalState.calls ≤ gn) ∧
    ((GeminiAgent_run gp gm gui gimgs gn).result =
      if (GeminiAgent_run gp gm gui gimgs gn).completed = false ∧
          (GeminiAgent_run gp gm gui gimgs gn).finalState.transcript = [] then gemExhausted
      else joinBlank (GeminiAgent_run gp gm gui gimgs gn).finalState.transcript) := by
  refine ⟨?_, ORAgent_run_result_eq provider m sp ui imgs n, ?_, ?_,
    GeminiAgent_run_result_eq gp gm gui gimgs gn⟩
  · show (runLoopOR provider m n
        ⟨[.system sp, .user (build_user_content ui imgs)], [], [], [], 0⟩).1.calls ≤ n
    simpa using runLoopOR_calls provider m n
      ⟨[.system sp, .user (build_user_content ui imgs)], [], [], [], 0⟩
  · exact runLoopOR_transcript provider m n _ rfl
  · show (runLoopGem gp gm gn
        ⟨[⟨"user", build_content_parts gui gimgs⟩], [], [], [], 0⟩).1.calls ≤ gn
    simpa using runLoopGem_calls gp gm gn
      ⟨[⟨"user", build_content_parts gui gimgs⟩], [], [], [], 0⟩

/-- C9: removing a tool before `run` starts removes it both from the schemas
offered to the provider and from the name-to-function mapping, for both agent
implementations; a provider-requested call of the removed tool then produces
the unknown-tool error payload, and no run over the shrunk mapping ever
executes the removed tool's function. -/
theorem C9_removed_tool_never_invokable (tools gtools : List String) (m gm : ToolMapping)
    (t : String) (provider : Provider) (gp : GemProvider) (sp ui gui id args : String)
    (imgs gimgs : Option (List ImageDict)) (n gn : Nat) :
    t ∉ (ORAgent.remove_tool ⟨tools, m⟩ t).tools ∧
    lookupTool (ORAgent.remove_tool ⟨tools, m⟩ t).tool_mapping t = none ∧
    handle_tool_call (ORAgent.remove_tool ⟨tools, m⟩ t).tool_mapping ⟨id, t, args⟩ =
      (.tool id t (unknownToolContent t), false) ∧
    t ∉ (ORAgent_run provider (ORAgent.remove_tool ⟨tools, m⟩ t).tool_mapping sp ui imgs
        n).finalState.executed ∧
    t ∉ (GemAgent.remove_tool ⟨gtools, gm⟩ t).discovered_tools ∧
    lookupTool (GemAgent.remove_tool ⟨gtools, gm⟩ t).tool_mapping t = none ∧
    gemHandleToolCall (GemAgent.remove_tool ⟨gtools, gm⟩ t).tool_mapping ⟨id, t, args⟩ =
      (unknownToolContent t, false) ∧
    t ∉ (GeminiAgent_run gp (GemAgent.remove_tool ⟨gtools, gm⟩ t).tool_mapping gui gimgs
        gn).finalState.executed := by
  have hor : lookupTool (m.filter (fun p => p.1 ≠ t)) t = none := lookupTool_filter_ne m t
  have hgm : lookupTool (gm.filter (fun p => p.1 ≠ t)) t = none := lookupTool_filter_ne gm t
  refine ⟨?_, hor, ?_, ?_, ?_, hgm, ?_, ?_⟩
  · simp [ORAgent.remove_tool]
  · exact handle_tool_call_unknown _ ⟨id, t, args⟩ hor
  · exact runLoopOR_executed provider _ t hor n _ (by simp)
  · simp [GemAgent.remove_tool]
  · exact gemHandleToolCall_unknown _ ⟨id, t, args⟩ hgm
  · exact runLoopGem_executed gp _ t hgm gn _ (by simp)

/-- C8: within a single `orchestrate` run, the sequence of statuses written
to any one stage-level or agent-level key of the progress store is strictly
rank-increasing along the queued → in-progress/processing → completed/failed
chain, for every agent behaviour, every per-task outcome, every worker-thread
interleaving and every batch-timeout pattern — in particular a key recorded
as COMPLETED is never later overwritten with QUEUED or IN_PROGRESS, and no
backward transition ever occurs. -/
theorem C8_progress_status_monotonic (beh : Behavior) (jsonParse : JsonParse)
    (discovered : List String) (user_input : String)
    (images : Option (List ImageDict)) (sc : Scheduling) :
    GoodTrace (orchestrate beh jsonParse discovered user_input images sc).events := by
  apply goodTrace_of_condRel
  have hq := qgen_events_pairwise jsonParse beh discovered user_input
  have kq := qgen_events_keys jsonParse beh discovered user_input
  have knil : ∀ (ks : List (EvKind × String)) (e : Event), e ∈ ([] : List Event) →
      (e.kind, e.key) ∈ ks := fun ks e he => absurd he (List.not_mem_nil e)
  simp only [orchestrate]
  split
  · exact hq
  · rename_i qv hqv
    split
    · have := condPairwise_concat5 _ _ [] [] [] hq
        (run_parallel_events_pairwise beh discovered (promptsOf qv) images
          sc.researchSched sc.researchOrder sc.researchTimedOut)
        List.Pairwise.nil List.Pairwise.nil List.Pairwise.nil
        kq
        (run_parallel_events_keys beh discovered (promptsOf qv) images
          sc.researchSched sc.researchOrder sc.researchTimedOut)
        (knil _) (knil _) (knil _)
      simpa using this
    · rename_i rres hrres
      split
      · have := condPairwise_concat5 _ _ _ [] [] hq
          (run_parallel_events_pairwise beh discovered (promptsOf qv) images
            sc.researchSched sc.researchOrder sc.researchTimedOut)
          (synth_events_pairwise beh rres)
          List.Pairwise.nil List.Pairwise.nil
          kq
          (run_parallel_events_keys beh discovered (promptsOf qv) images
            sc.researchSched sc.researchOrder sc.researchTimedOut)
          (synth_events_keys beh rres)
          (knil _) (knil _)
        simpa using this
      · rename_i draft hdraft
        split
        · have := condPairwise_concat5 _ _ _ _ [] hq
            (run_parallel_events_pairwise beh discovered (promptsOf qv) images
              sc.researchSched sc.researchOrder sc.researchTimedOut)
            (synth_events_pairwise beh rres)
            (run_validation_events_pairwise beh discovered user_input draft
              sc.valSched sc.valOrder sc.valTimedOut)
            List.Pairwise.nil
            kq
            (run_parallel_events_keys beh discovered (promptsOf qv) images
              sc.researchSched sc.researchOrder sc.researchTimedOut)
            (synth_events_keys beh rres)
            (run_validation_events_keys beh discovered user_input draft
              sc.valSched sc.valOrder sc.valTimedOut)
            (knil _)
          simpa using this
        · rename_i vres hvres
          have hfull := condPairwise_concat5 _ _ _ _ _ hq
            (run_parallel_events_pairwise beh discovered (promptsOf qv) images
              sc.researchSched sc.researchOrder sc.researchTimedOut)
            (synth_events_pairwise beh rres)
            (run_validation_events_pairwise beh discovered user_input draft
              sc.valSched sc.valOrder sc.valTimedOut)
            (final_events_pairwise beh user_input draft vres)
            kq
            (run_parallel_events_keys beh discovered (promptsOf qv) images
              sc.researchSched sc.researchOrder sc.researchTimedOut)
            (synth_events_keys beh rres)
            (run_validation_events_keys beh discovered user_input draft
              sc.valSched sc.valOrder sc.valTimedOut)
            (final_events_keys beh user_input draft vres)
          split
          · exact hfull
          · exact hfull

end MakeItHeavy
